import Mathlib

/-!
# ProtoScope — verification of the subscription decoder, backend config
synthesizer and test orchestrator

This file shallowly embeds the core of the ProtoScope repository
(Go) in Lean 4 and proves properties of the embedding:

* the six URI parsers (`ParseVMess`, `ParseVLESS`, `ParseTrojan`,
  `ParseShadowsocks`, `ParseHysteria2`, `ParseTUIC` — package
  `internal/parser`);
* the subscription line dispatcher (`Decoder.parseProtocols` /
  `Decoder.parseProtocolLine` — `internal/parser/decoder.go`);
* the base64 fallback chain (`Decoder.decodeBase64` and the inlined
  chains in the vmess and shadowsocks parsers);
* the backend config synthesizers (`generateStreamSettings` in
  `internal/tester/xray_configs.go` and `generateSingboxVLESSOutbound`
  in `internal/tester/singbox_configs.go`);
* the orchestrator (`TestRunner.RunTests` / `TestRunner.testProtocol`
  in `internal/tester/runner.go`);
* the DNS leak classifier (`DNSChecker.checkIfLeaking` and
  `DNSChecker.CheckDNSLeak` in `internal/checks/performance.go`).

Go strings are modelled as `List Char` at ASCII fidelity (every byte the
decoders and parsers inspect is ASCII; decoded base64 bytes are carried
as characters of equal code point).  Go's `net/url`, `encoding/base64`,
`encoding/json` and `strconv` standard-library calls are modelled by
executable Lean functions that reproduce their behaviour on the
authority-form, base64 and JSON inputs the repository feeds them
(non-bracketed hosts, `&`-separated queries).
-/

namespace ProtoScope

/-- Character list standing for a Go string (byte-for-byte, ASCII). -/
abbrev Str := List Char

/-- ASCII decimal digit test (`unicode.IsDigit` on ASCII / `strconv`). -/
def isDigitCh (c : Char) : Bool := '0' ≤ c ∧ c ≤ '9'

/-- ASCII whitespace recognised by `strings.TrimSpace`. -/
def isSpaceCh (c : Char) : Bool :=
  c = ' ' ∨ c = '\t' ∨ c = '\n' ∨ c = '\x0b' ∨ c = '\x0c' ∨ c = '\r'

/-- `strings.TrimSpace` (ASCII model): drop leading and trailing space. -/
def trimSpace (l : Str) : Str :=
  (((l.dropWhile (isSpaceCh ·)).reverse.dropWhile (isSpaceCh ·)).reverse)

/-- Numeric value of a digit list, most significant digit first. -/
def digitsVal (l : Str) : Nat := l.foldl (fun a c => a * 10 + (c.toNat - 48)) 0

/-- `strconv.Atoi`: optional sign, one or more ASCII digits, 64-bit
range check; everything else is an error (`none`). -/
def goAtoi (l : Str) : Option Int :=
  match l with
  | [] => none
  | c :: rest =>
    let (neg, digits) :=
      if c = '-' then (true, rest)
      else if c = '+' then (false, rest)
      else (false, c :: rest)
    if digits.isEmpty then none
    else if ¬ digits.all (isDigitCh ·) then none
    else
      let v := digitsVal digits
      if neg then
        if v ≤ 2 ^ 63 then some (-(v : Int)) else none
      else
        if v < 2 ^ 63 then some (v : Int) else none

/-- `strings.HasPrefix`. -/
def hasPrefix (l pre : Str) : Bool := List.isPrefixOf pre l

/-- `strings.TrimPrefix`: drop `pre` when it is a prefix, else identity. -/
def trimPrefix (l pre : Str) : Str :=
  if hasPrefix l pre then l.drop pre.length else l

/-- Split at the first occurrence of `c`: `some (before, after)`, the
separator removed; `none` when `c` does not occur. -/
def splitFirst (c : Char) : Str → Option (Str × Str)
  | [] => none
  | x :: xs =>
    if x = c then some ([], xs)
    else match splitFirst c xs with
      | some (a, b) => some (x :: a, b)
      | none => none

/-- Split at the last occurrence of `c` (`strings.LastIndex`). -/
def splitLast (c : Char) (l : Str) : Option (Str × Str) :=
  match splitFirst c l.reverse with
  | some (a, b) => some (b.reverse, a.reverse)
  | none => none

/-- `strings.Contains` for a single character. -/
def containsCh (l : Str) (c : Char) : Bool := l.any (· = c)

/-- `strings.ReplaceAll l old new` for non-empty `old` (leftmost-first,
fuel-bounded by the input length). -/
def replaceAllAux : Nat → Str → Str → Str → Str
  | 0, l, _, _ => l
  | _ + 1, [], _, _ => []
  | fuel + 1, x :: xs, old, new =>
    if hasPrefix (x :: xs) old ∧ ¬ old.isEmpty then
      new ++ replaceAllAux fuel ((x :: xs).drop old.length) old new
    else
      x :: replaceAllAux fuel xs old new

def replaceAll (l old new : Str) : Str := replaceAllAux (l.length + 1) l old new

/-- Protocol type enum (`models.ProtocolType`). -/
inductive PType where
  | vmess | vless | trojan | shadowsocks | hysteria2 | tuic
  deriving DecidableEq, Repr

/-- Canonical protocol record (`models.Protocol`).  `extra` is the
string-keyed bag `Extra`; every value the parsers store is a Go string,
so the bag is modelled as an association list of strings (first match
wins on lookup, mirroring unique-key Go maps). -/
structure Protocol where
  ptype : PType
  name : Str
  server : Str
  port : Int
  uuid : Str := []
  password : Str := []
  network : Str := []
  tls : Bool := false
  sni : Str := []
  raw : Str := []
  extra : List (Str × Str) := []
  deriving DecidableEq, Repr

/-- Lookup in the `Extra` bag (Go map indexing with `.(string)`
assertion: present keys yield their string, absent keys fail). -/
def extraGet (p : Protocol) (k : Str) : Option Str :=
  (p.extra.lookup k)

/-- `fmt.Sprintf "%s:%d"` — the default display name. -/
def hostPortName (host : Str) (port : Int) : Str := host ++ ':' :: (toString port).data

/-! ## Model of Go `net/url` on authority-form URIs

The vless, trojan, hysteria2 and tuic parsers hand their URI to
`url.Parse` and read `User.Username()`, `User.Password()`,
`Hostname()`, `Port()`, `Query().Get(..)` and `Fragment`.  The model
below reproduces that behaviour for `scheme://[userinfo@]host[:port]
[/path][?query][#fragment]` URIs with non-bracketed hosts: the fragment
is split off at the first `#` and percent-decoded, the query at the
first `?`, the userinfo at the last `@` of the authority, the port is
the all-digits suffix after the last `:` of host:port (a non-numeric
port is a parse error), and `Query().Get` percent-decodes with `+` as
space and returns the first value of the key (malformed pairs are
dropped, as `url.Query()` ignores `ParseQuery` errors). -/

/-- Hex digit value. -/
def hexVal (c : Char) : Option Nat :=
  if '0' ≤ c ∧ c ≤ '9' then some (c.toNat - 48)
  else if 'a' ≤ c ∧ c ≤ 'f' then some (c.toNat - 87)
  else if 'A' ≤ c ∧ c ≤ 'F' then some (c.toNat - 55)
  else none

/-- Percent-decoding (`url.unescape`).  `plus` selects query mode where
`+` decodes to a space.  A malformed `%`-escape is an error. -/
def percentDecode (plus : Bool) : Str → Option Str
  | [] => some []
  | '%' :: h₁ :: h₂ :: rest =>
    match hexVal h₁, hexVal h₂ with
    | some a, some b =>
      match percentDecode plus rest with
      | some r => some (Char.ofNat (16 * a + b) :: r)
      | none => none
    | _, _ => none
  | '%' :: _ :: [] => none
  | '%' :: [] => none
  | c :: rest =>
    match percentDecode plus rest with
    | some r => some ((if plus ∧ c = '+' then ' ' else c) :: r)
    | none => none

/-- Parsed URL components (the fields of `url.URL` the parsers read). -/
structure URLParts where
  scheme : Str
  username : Str
  password : Str
  host : Str
  portStr : Str
  rawQuery : Str
  fragment : Str
  deriving DecidableEq, Repr

/-- Split `host[:port]`: the suffix after the last `:` must be all
digits (Go `validOptionalPort`), otherwise the URL fails to parse. -/
def splitHostPort (hp : Str) : Option (Str × Str) :=
  match splitLast ':' hp with
  | some (h, p) => if p.all (isDigitCh ·) then some (h, p) else none
  | none => some (hp, [])

/-- `url.Parse` model for `scheme://...` URIs (see section comment). -/
def urlParse (s : Str) : Option URLParts :=
  match splitFirst '#' s with
  | r =>
    let (beforeFrag, rawFrag) := match r with
      | some (a, b) => (a, b)
      | none => (s, [])
    match percentDecode false rawFrag with
    | none => none
    | some frag =>
      let (core, rawQuery) := match splitFirst '?' beforeFrag with
        | some (a, b) => (a, b)
        | none => (beforeFrag, [])
      match splitFirst ':' core with
      | none => none
      | some (scheme, rest) =>
        if hasPrefix rest "//".data then
          let afterSlashes := rest.drop 2
          let authority := afterSlashes.takeWhile (· ≠ '/')
          let (userinfo, hostport, hasUser) := match splitLast '@' authority with
            | some (ui, hp) => (ui, hp, true)
            | none => ([], authority, false)
          let (rawUser, rawPass) := match splitFirst ':' userinfo with
            | some (u, p) => (u, p)
            | none => (userinfo, [])
          match percentDecode false rawUser, percentDecode false rawPass with
          | some user, some pass =>
            match splitHostPort hostport with
            | some (h, p) =>
              some { scheme := scheme
                     username := if hasUser then user else []
                     password := if hasUser then pass else []
                     host := h, portStr := p
                     rawQuery := rawQuery, fragment := frag }
            | none => none
          | _, _ => none
        else none

/-- One `key=value` pair of a query (`url.ParseQuery` per-pair step);
malformed pairs (bad escape, `;` in the key) are dropped. -/
def parseQueryPair (pair : Str) : Option (Str × Str) :=
  let (k, v) := match splitFirst '=' pair with
    | some (a, b) => (a, b)
    | none => (pair, [])
  if containsCh k ';' then none
  else match percentDecode true k, percentDecode true v with
    | some k', some v' => some (k', v')
    | _, _ => none

/-- `url.Values` built from a raw query (split on `&`, empty components
skipped, malformed pairs dropped). -/
def parseQuery (rawQuery : Str) : List (Str × Str) :=
  (List.splitOn '&' rawQuery).filterMap fun pair =>
    if pair.isEmpty then none else parseQueryPair pair

/-- `u.Query().Get(k)`: first value of `k`, or the empty string. -/
def queryGet (u : URLParts) (k : Str) : Str :=
  match (parseQuery u.rawQuery).lookup k with
  | some v => v
  | none => []

/-! ## The authority-form URI parsers
`internal/parser/vless.go`, `internal/parser/trojan.go`,
`internal/parser/hysteria2.go` (which also holds `ParseTUIC`). -/

/-- `ParseVLESS` (`internal/parser/vless.go`). -/
def ParseVLESS (rawURL : Str) : Except Str Protocol :=
  match urlParse rawURL with
  | none => .error "failed to parse vless url".data
  | some u =>
    let uuid := u.username
    if uuid.isEmpty then .error "missing uuid in vless url".data
    else
      let host := u.host
      if host.isEmpty then .error "missing host in vless url".data
      else
        let portStr := if u.portStr.isEmpty then "443".data else u.portStr
        match goAtoi portStr with
        | none => .error "invalid port".data
        | some port =>
          let name := if u.fragment.isEmpty then hostPortName host port else u.fragment
          let network := if (queryGet u "type".data).isEmpty then "tcp".data
                         else queryGet u "type".data
          let security := queryGet u "security".data
          let tls := security == "tls".data || security == "xtls".data ||
                     security == "reality".data
          let sni := if (queryGet u "sni".data).isEmpty then queryGet u "peer".data
                     else queryGet u "sni".data
          .ok { ptype := .vless, name := name, server := host, port := port
                uuid := uuid, network := network, tls := tls, sni := sni
                raw := rawURL
                extra := [("security".data, security),
                          ("flow".data, queryGet u "flow".data),
                          ("encryption".data, queryGet u "encryption".data),
                          ("headerType".data, queryGet u "headerType".data),
                          ("host".data, queryGet u "host".data),
                          ("path".data, queryGet u "path".data)] }

/-- `ParseTrojan` (`internal/parser/trojan.go`). -/
def ParseTrojan (rawURL : Str) : Except Str Protocol :=
  match urlParse rawURL with
  | none => .error "failed to parse trojan url".data
  | some u =>
    let password := u.username
    if password.isEmpty then .error "missing password in trojan url".data
    else
      let host := u.host
      if host.isEmpty then .error "missing host in trojan url".data
      else
        let portStr := if u.portStr.isEmpty then "443".data else u.portStr
        match goAtoi portStr with
        | none => .error "invalid port".data
        | some port =>
          let name := if u.fragment.isEmpty then hostPortName host port else u.fragment
          let network := if (queryGet u "type".data).isEmpty then "tcp".data
                         else queryGet u "type".data
          let security := queryGet u "security".data
          let sni₀ := if (queryGet u "sni".data).isEmpty then queryGet u "peer".data
                      else queryGet u "sni".data
          let sni := if sni₀.isEmpty then host else sni₀
          .ok { ptype := .trojan, name := name, server := host, port := port
                password := password, network := network, tls := true, sni := sni
                raw := rawURL
                extra := [("security".data, security),
                          ("headerType".data, queryGet u "headerType".data),
                          ("host".data, queryGet u "host".data),
                          ("path".data, queryGet u "path".data)] }

/-- `ParseHysteria2` (`internal/parser/hysteria2.go`): normalizes the
`hy2://` alias, then authority parsing; network forced `udp`, TLS
forced true; SNI falls back to the host. -/
def ParseHysteria2 (rawURL₀ : Str) : Except Str Protocol :=
  let rawURL := replaceAll rawURL₀ "hy2://".data "hysteria2://".data
  match urlParse rawURL with
  | none => .error "failed to parse hysteria2 url".data
  | some u =>
    let password := u.username
    if password.isEmpty then .error "missing password in hysteria2 url".data
    else
      let host := u.host
      if host.isEmpty then .error "missing host in hysteria2 url".data
      else
        let portStr := if u.portStr.isEmpty then "443".data else u.portStr
        match goAtoi portStr with
        | none => .error "invalid port".data
        | some port =>
          let name := if u.fragment.isEmpty then hostPortName host port else u.fragment
          let sni := if (queryGet u "sni".data).isEmpty then host
                     else queryGet u "sni".data
          .ok { ptype := .hysteria2, name := name, server := host, port := port
                password := password, network := "udp".data, tls := true, sni := sni
                raw := rawURL
                extra := [("obfs".data, queryGet u "obfs".data),
                          ("obfs-password".data, queryGet u "obfs-password".data),
                          ("insecure".data, queryGet u "insecure".data),
                          ("pinSHA256".data, queryGet u "pinSHA256".data)] }

/-- `ParseTUIC` (`internal/parser/hysteria2.go`): uuid is required, the
password is taken from the userinfo without any emptiness check, and
SNI falls back to the host (the `peer` parameter is not consulted). -/
def ParseTUIC (rawURL : Str) : Except Str Protocol :=
  match urlParse rawURL with
  | none => .error "failed to parse tuic url".data
  | some u =>
    let uuid := u.username
    let password := u.password
    if uuid.isEmpty then .error "missing uuid in tuic url".data
    else
      let host := u.host
      if host.isEmpty then .error "missing host in tuic url".data
      else
        let portStr := if u.portStr.isEmpty then "443".data else u.portStr
        match goAtoi portStr with
        | none => .error "invalid port".data
        | some port =>
          let name := if u.fragment.isEmpty then hostPortName host port else u.fragment
          let sni := if (queryGet u "sni".data).isEmpty then host
                     else queryGet u "sni".data
          .ok { ptype := .tuic, name := name, server := host, port := port
                uuid := uuid, password := password, network := "udp".data
                tls := true, sni := sni, raw := rawURL
                extra := [("congestion_control".data,
                            queryGet u "congestion_control".data),
                          ("alpn".data, queryGet u "alpn".data),
                          ("disable_sni".data, queryGet u "disable_sni".data)] }

/-! ## Model of Go `encoding/base64`

`base64.StdEncoding` / `base64.URLEncoding` (padded) and
`base64.RawStdEncoding` (unpadded), as used by the subscription decoder
and the vmess and shadowsocks parsers.  Decoded bytes are carried as
characters of equal code point.  Following the Go decoder, `\r` and
`\n` are ignored, a non-alphabet character or misplaced padding is an
error, and a final quantum of one character is an error. -/

/-- Alphabet value of a base64 character (`url` selects `-_` in place
of `+/`). -/
def b64Val (url : Bool) (c : Char) : Option Nat :=
  if 'A' ≤ c ∧ c ≤ 'Z' then some (c.toNat - 65)
  else if 'a' ≤ c ∧ c ≤ 'z' then some (c.toNat - 71)
  else if '0' ≤ c ∧ c ≤ '9' then some (c.toNat + 4)
  else if url then
    if c = '-' then some 62 else if c = '_' then some 63 else none
  else
    if c = '+' then some 62 else if c = '/' then some 63 else none

/-- Newline filtering done by the Go decoder. -/
def b64Strip (l : Str) : Str := l.filter (fun c => ¬ (c = '\r' ∨ c = '\n'))

/-- Emit the three bytes of a full 24-bit quantum. -/
def b64Bytes3 (a b c d : Nat) : Str :=
  let v := a * 2 ^ 18 + b * 2 ^ 12 + c * 2 ^ 6 + d
  [Char.ofNat (v / 2 ^ 16), Char.ofNat (v / 2 ^ 8 % 2 ^ 8), Char.ofNat (v % 2 ^ 8)]

/-- Decode groups of four with trailing `=` padding (the padded
encodings; padding may appear only in the final quantum). -/
def b64DecPadded (url : Bool) : Str → Option Str
  | [] => some []
  | c₁ :: c₂ :: c₃ :: c₄ :: rest =>
    match b64Val url c₁, b64Val url c₂ with
    | some a, some b =>
      if c₃ = '=' then
        if c₄ = '=' ∧ rest.isEmpty then some [Char.ofNat ((a * 2 ^ 18 + b * 2 ^ 12) / 2 ^ 16)]
        else none
      else
        match b64Val url c₃ with
        | some c =>
          if c₄ = '=' then
            if rest.isEmpty then
              let v := a * 2 ^ 18 + b * 2 ^ 12 + c * 2 ^ 6
              some [Char.ofNat (v / 2 ^ 16), Char.ofNat (v / 2 ^ 8 % 2 ^ 8)]
            else none
          else
            match b64Val url c₄, b64DecPadded url rest with
            | some d, some tail => some (b64Bytes3 a b c d ++ tail)
            | _, _ => none
        | none => none
    | _, _ => none
  | _ => none

/-- Decode groups of four without padding; the final quantum may hold
two or three characters, a single leftover character is an error. -/
def b64DecRaw (url : Bool) : Str → Option Str
  | [] => some []
  | [_] => none
  | [c₁, c₂] =>
    match b64Val url c₁, b64Val url c₂ with
    | some a, some b => some [Char.ofNat ((a * 2 ^ 18 + b * 2 ^ 12) / 2 ^ 16)]
    | _, _ => none
  | [c₁, c₂, c₃] =>
    match b64Val url c₁, b64Val url c₂, b64Val url c₃ with
    | some a, some b, some c =>
      let v := a * 2 ^ 18 + b * 2 ^ 12 + c * 2 ^ 6
      some [Char.ofNat (v / 2 ^ 16), Char.ofNat (v / 2 ^ 8 % 2 ^ 8)]
    | _, _, _ => none
  | c₁ :: c₂ :: c₃ :: c₄ :: rest =>
    match b64Val url c₁, b64Val url c₂, b64Val url c₃, b64Val url c₄,
          b64DecRaw url rest with
    | some a, some b, some c, some d, some tail => some (b64Bytes3 a b c d ++ tail)
    | _, _, _, _, _ => none

/-- `base64.StdEncoding.DecodeString`. -/
def b64DecodeStd (l : Str) : Option Str := b64DecPadded false (b64Strip l)

/-- `base64.URLEncoding.DecodeString`. -/
def b64DecodeURL (l : Str) : Option Str := b64DecPadded true (b64Strip l)

/-- `base64.RawStdEncoding.DecodeString`. -/
def b64DecodeRawStd (l : Str) : Option Str := b64DecRaw false (b64Strip l)

/-- `Decoder.decodeBase64` (`internal/parser/decoder.go`): standard,
then URL-safe, then raw-unpadded. -/
def decodeBase64 (content : Str) : Except Str Str :=
  match b64DecodeStd content with
  | some d => .ok d
  | none =>
    match b64DecodeURL content with
    | some d => .ok d
    | none =>
      match b64DecodeRawStd content with
      | some d => .ok d
      | none => .error "failed to decode base64".data

/-- The inlined fallback chain of `ParseShadowsocks`. -/
def ssDecodeStep (encoded : Str) : Except Str Str :=
  match b64DecodeStd encoded with
  | some d => .ok d
  | none =>
    match b64DecodeURL encoded with
    | some d => .ok d
    | none =>
      match b64DecodeRawStd encoded with
      | some d => .ok d
      | none => .error "failed to decode shadowsocks".data

/-- The inlined fallback chain of `ParseVMess`. -/
def vmessDecodeStep (encoded : Str) : Except Str Str :=
  match b64DecodeStd encoded with
  | some d => .ok d
  | none =>
    match b64DecodeURL encoded with
    | some d => .ok d
    | none =>
      match b64DecodeRawStd encoded with
      | some d => .ok d
      | none => .error "failed to decode vmess".data

/-- Modelled from the spec: the fallback chain as §4.2/§8 word it —
"standard → URL-safe → raw-unpadded ... in that fixed order", first
success wins, failure only when all three fail.  Compared with the
source-translated chains in the C3 theorem. -/
def base64FallbackSpec (s : Str) : Option Str :=
  match b64DecodeStd s with
  | some d => some d
  | none =>
    match b64DecodeURL s with
    | some d => some d
    | none => b64DecodeRawStd s

/-- `ParseShadowsocks` (`src/unnamed/part_005`): strip `ss://`, split
the `#name`, base64 fallback chain, split `method:password@host:port`
at the last `@`, the userinfo at the first `:`, the server at the
last `:`. -/
def ParseShadowsocks (rawURL : Str) : Except Str Protocol :=
  let content := trimPrefix rawURL "ss://".data
  let (encoded, name₀) := match splitFirst '#' content with
    | some (a, b) => (a, (percentDecode true b).getD [])
    | none => (content, [])
  match ssDecodeStep encoded with
  | .error e => .error e
  | .ok decodedStr =>
    if containsCh decodedStr '@' then
      match splitLast '@' decodedStr with
      | none => .error "invalid shadowsocks format".data
      | some (userInfo, serverInfo) =>
        match splitFirst ':' userInfo with
        | none => .error "invalid shadowsocks format".data
        | some (method, password) =>
          match splitLast ':' serverInfo with
          | none => .error "invalid shadowsocks format".data
          | some (server, portStr) =>
            match goAtoi portStr with
            | none => .error "invalid port".data
            | some port =>
              let name := if name₀.isEmpty then hostPortName server port else name₀
              .ok { ptype := .shadowsocks, name := name, server := server
                    port := port, password := password, network := "tcp".data
                    tls := false, raw := rawURL
                    extra := [("method".data, method)] }
    else .error "unsupported shadowsocks format".data

/-! ## Model of Go `encoding/json` for the vmess payload

`ParseVMess` (`src/unnamed/part_006`) unmarshals the decoded payload
into `VMessConfig`, whose `Port` field has the custom type
`stringOrNumber`: its `UnmarshalJSON` receives the raw bytes of the
port value, unquotes them when they start with `"`, and otherwise
takes the space-trimmed raw text.  The model parses JSON into a value
tree that keeps the raw text of number literals, and feeds the port
field's raw serialization to the `stringOrNumber` step. -/

/-- JSON value; number literals keep their raw source text, which is
what `stringOrNumber.UnmarshalJSON` consumes. -/
inductive JValue where
  | jnull
  | jbool (b : Bool)
  | jnum (raw : Str)
  | jstr (s : Str)
  | jarr (xs : List JValue)
  | jobj (fields : List (Str × JValue))

/-- JSON whitespace. -/
def jIsWs (c : Char) : Bool := c = ' ' ∨ c = '\t' ∨ c = '\n' ∨ c = '\r'

def jSkipWs (l : Str) : Str := l.dropWhile (jIsWs ·)

/-- Parse the body of a string literal after the opening quote;
returns the decoded characters and the input after the closing quote. -/
def jParseStrBody : Nat → Str → Option (Str × Str)
  | 0, _ => none
  | _ + 1, [] => none
  | fuel + 1, c :: rest =>
    if c = '"' then some ([], rest)
    else if c = '\\' then
      match rest with
      | [] => none
      | e :: rest' =>
        let push (d : Char) (tail : Str) : Option (Str × Str) :=
          match jParseStrBody fuel tail with
          | some (s, r) => some (d :: s, r)
          | none => none
        if e = '"' then push '"' rest'
        else if e = '\\' then push '\\' rest'
        else if e = '/' then push '/' rest'
        else if e = 'b' then push '\x08' rest'
        else if e = 'f' then push '\x0c' rest'
        else if e = 'n' then push '\n' rest'
        else if e = 'r' then push '\r' rest'
        else if e = 't' then push '\t' rest'
        else if e = 'u' then
          match rest' with
          | h₁ :: h₂ :: h₃ :: h₄ :: rest'' =>
            match hexVal h₁, hexVal h₂, hexVal h₃, hexVal h₄ with
            | some a, some b, some c', some d =>
              push (Char.ofNat (((a * 16 + b) * 16 + c') * 16 + d)) rest''
            | _, _, _, _ => none
          | _ => none
        else none
    else
      match jParseStrBody fuel rest with
      | some (s, r) => some (c :: s, r)
      | none => none

/-- Parse a number token, returning its raw text and the rest. -/
def jParseNum (l : Str) : Option (Str × Str) :=
  let (sign, l₁) := if l.headD ' ' = '-' then (['-'], l.drop 1) else ([], l)
  let intPart := l₁.takeWhile (isDigitCh ·)
  let l₂ := l₁.drop intPart.length
  if intPart.isEmpty then none
  else
    let (fracPart, l₃) :=
      if l₂.headD ' ' = '.' then
        let ds := (l₂.drop 1).takeWhile (isDigitCh ·)
        ('.' :: ds, l₂.drop (1 + ds.length))
      else ([], l₂)
    if fracPart = ['.'] then none
    else
      let (expPart, l₄) :=
        if l₃.headD ' ' = 'e' ∨ l₃.headD ' ' = 'E' then
          let e := l₃.headD ' '
          let afterE := l₃.drop 1
          let (es, afterSign) :=
            if afterE.headD ' ' = '+' ∨ afterE.headD ' ' = '-' then
              ([afterE.headD ' '], afterE.drop 1)
            else ([], afterE)
          let ds := afterSign.takeWhile (isDigitCh ·)
          if ds.isEmpty then ([], l₃)
          else (e :: es ++ ds, afterSign.drop ds.length)
        else ([], l₃)
      some (sign ++ intPart ++ fracPart ++ expPart, l₄)

mutual

/-- Parse one JSON value (fuel-bounded recursive descent). -/
def jParseVal : Nat → Str → Option (JValue × Str)
  | 0, _ => none
  | fuel + 1, l =>
    let l := jSkipWs l
    match l with
    | [] => none
    | c :: rest =>
      if c = '{' then
        match jParseObjFields fuel rest true with
        | some (fs, r) => some (.jobj fs, r)
        | none => none
      else if c = '[' then
        match jParseArrElems fuel rest true with
        | some (xs, r) => some (.jarr xs, r)
        | none => none
      else if c = '"' then
        match jParseStrBody (rest.length + 1) rest with
        | some (s, r) => some (.jstr s, r)
        | none => none
      else if hasPrefix l "null".data then some (.jnull, l.drop 4)
      else if hasPrefix l "true".data then some (.jbool true, l.drop 4)
      else if hasPrefix l "false".data then some (.jbool false, l.drop 5)
      else
        match jParseNum l with
        | some (raw, r) => some (.jnum raw, r)
        | none => none

/-- Parse object members up to the closing brace; `first` marks the
position right after the opening brace where an empty object may end. -/
def jParseObjFields : Nat → Str → Bool → Option (List (Str × JValue) × Str)
  | 0, _, _ => none
  | fuel + 1, l, first =>
    let l := jSkipWs l
    if first ∧ l.headD ' ' = '}' then some ([], l.drop 1)
    else
      match l with
      | '"' :: rest =>
        match jParseStrBody (rest.length + 1) rest with
        | none => none
        | some (key, afterKey) =>
          let afterKey := jSkipWs afterKey
          match afterKey with
          | ':' :: afterColon =>
            match jParseVal fuel afterColon with
            | none => none
            | some (v, afterVal) =>
              let afterVal := jSkipWs afterVal
              match afterVal with
              | '}' :: r => some ([(key, v)], r)
              | ',' :: r =>
                match jParseObjFields fuel r false with
                | some (fs, r') => some ((key, v) :: fs, r')
                | none => none
              | _ => none
          | _ => none
      | _ => none

/-- Parse array elements up to the closing bracket. -/
def jParseArrElems : Nat → Str → Bool → Option (List JValue × Str)
  | 0, _, _ => none
  | fuel + 1, l, first =>
    let l := jSkipWs l
    if first ∧ l.headD ' ' = ']' then some ([], l.drop 1)
    else
      match jParseVal fuel l with
      | none => none
      | some (v, afterVal) =>
        let afterVal := jSkipWs afterVal
        match afterVal with
        | ']' :: r => some ([v], r)
        | ',' :: r =>
          match jParseArrElems fuel r false with
          | some (vs, r') => some (v :: vs, r')
          | none => none
        | _ => none

end

/-- Top-level JSON parse (`json.Unmarshal` document scan): one value,
nothing but whitespace after it. -/
def jsonParse (l : Str) : Option JValue :=
  match jParseVal (2 * l.length + 4) l with
  | some (v, rest) => if (jSkipWs rest).isEmpty then some v else none
  | none => none

/-- Quote a string as a JSON literal. -/
def jQuote (s : Str) : Str :=
  '"' :: (s.flatMap fun c =>
    if c = '"' then ['\\', '"']
    else if c = '\\' then ['\\', '\\']
    else if c = '\n' then ['\\', 'n']
    else if c = '\r' then ['\\', 'r']
    else if c = '\t' then ['\\', 't']
    else [c]) ++ ['"']

mutual

/-- Re-serialization of a JSON value (raw bytes handed to a custom
`UnmarshalJSON`; numbers keep their original text). -/
def jSerialize : JValue → Str
  | .jnull => "null".data
  | .jbool true => "true".data
  | .jbool false => "false".data
  | .jnum raw => raw
  | .jstr s => jQuote s
  | .jarr xs => '[' :: jSerializeItems xs ++ [']']
  | .jobj fs => '{' :: jSerializeFields fs ++ ['}']

def jSerializeItems : List JValue → Str
  | [] => []
  | [x] => jSerialize x
  | x :: y :: rest => jSerialize x ++ ',' :: jSerializeItems (y :: rest)

def jSerializeFields : List (Str × JValue) → Str
  | [] => []
  | [(k, v)] => jQuote k ++ ':' :: jSerialize v
  | (k, v) :: f :: rest => jQuote k ++ ':' :: jSerialize v ++ ',' :: jSerializeFields (f :: rest)

end

/-- `VMessConfig` (`src/unnamed/part_006`); `port` holds the string
produced by `stringOrNumber.UnmarshalJSON`. -/
structure VMessConfig where
  v : Str := []
  ps : Str := []
  add : Str := []
  port : Str := []
  id : Str := []
  aid : Str := []
  net : Str := []
  typ : Str := []
  host : Str := []
  path : Str := []
  tls : Str := []
  sni : Str := []
  deriving DecidableEq, Repr

/-- ASCII lower-casing (the case-insensitive field match of
`encoding/json`). -/
def toLowerAscii (l : Str) : Str :=
  l.map fun c => if 'A' ≤ c ∧ c ≤ 'Z' then Char.ofNat (c.toNat + 32) else c

/-- `stringOrNumber.UnmarshalJSON` applied to the raw bytes of the
port value: a quoted value is unmarshalled as a string, anything else
is the space-trimmed raw text. -/
def stringOrNumberOfJValue (v : JValue) : Str :=
  match v with
  | .jstr s => s
  | v => trimSpace (jSerialize v)

/-- String-field assignment of the `json.Unmarshal` into
`VMessConfig`: a JSON string sets the field, `null` leaves it
untouched, any other type is an unmarshal error. -/
def vmessSetStr (cfg : VMessConfig) (val : JValue)
    (f : VMessConfig → Str → VMessConfig) : Option VMessConfig :=
  match val with
  | .jstr s => some (f cfg s)
  | .jnull => some cfg
  | _ => none

/-- One field of the `json.Unmarshal` into `VMessConfig` (keys match
case-insensitively): the port field goes through `stringOrNumber` and
never fails, unknown keys are ignored. -/
def vmessSetField (cfg : VMessConfig) (k : Str) (val : JValue) : Option VMessConfig :=
  if toLowerAscii k = "port".data then
    some { cfg with port := stringOrNumberOfJValue val }
  else if toLowerAscii k = "v".data then vmessSetStr cfg val (fun c s => { c with v := s })
  else if toLowerAscii k = "ps".data then vmessSetStr cfg val (fun c s => { c with ps := s })
  else if toLowerAscii k = "add".data then vmessSetStr cfg val (fun c s => { c with add := s })
  else if toLowerAscii k = "id".data then vmessSetStr cfg val (fun c s => { c with id := s })
  else if toLowerAscii k = "aid".data then vmessSetStr cfg val (fun c s => { c with aid := s })
  else if toLowerAscii k = "net".data then vmessSetStr cfg val (fun c s => { c with net := s })
  else if toLowerAscii k = "type".data then vmessSetStr cfg val (fun c s => { c with typ := s })
  else if toLowerAscii k = "host".data then vmessSetStr cfg val (fun c s => { c with host := s })
  else if toLowerAscii k = "path".data then vmessSetStr cfg val (fun c s => { c with path := s })
  else if toLowerAscii k = "tls".data then vmessSetStr cfg val (fun c s => { c with tls := s })
  else if toLowerAscii k = "sni".data then vmessSetStr cfg val (fun c s => { c with sni := s })
  else some cfg

/-- `json.Unmarshal(decoded, &config)`: the document must be an
object; fields apply in order (a repeated key's last occurrence
wins). -/
def jUnmarshalVMess (v : JValue) : Option VMessConfig :=
  match v with
  | .jobj fields => fields.foldlM (fun cfg kv => vmessSetField cfg kv.1 kv.2) {}
  | _ => none

/-- `ParseVMess` (`src/unnamed/part_006`): strip the scheme, base64
fallback chain, JSON unmarshal, `strconv.Atoi` on the coerced port.
The display name is `config.PS` verbatim (no defaulting). -/
def ParseVMess (url : Str) : Except Str Protocol :=
  let encoded := trimPrefix url "vmess://".data
  match vmessDecodeStep encoded with
  | .error e => .error e
  | .ok decoded =>
    match jsonParse decoded with
    | none => .error "failed to parse vmess config".data
    | some doc =>
      match jUnmarshalVMess doc with
      | none => .error "failed to parse vmess config".data
      | some config =>
        match goAtoi config.port with
        | none => .error "invalid port".data
        | some port =>
          .ok { ptype := .vmess, name := config.ps, server := config.add
                port := port, uuid := config.id, network := config.net
                tls := config.tls == "tls".data, sni := config.sni, raw := url
                extra := [("aid".data, config.aid),
                          ("host".data, config.host),
                          ("path".data, config.path),
                          ("type".data, config.typ)] }

/-! ## The subscription decoder
`Decoder.parseProtocols` / `Decoder.parseProtocolLine`
(`internal/parser/decoder.go`). -/

/-- `bufio.Scanner` with `ScanLines`: split on `\n`, drop one trailing
`\r` per line, and no empty final token when the text ends in `\n`. -/
def scanLines (content : Str) : List Str :=
  let raw := List.splitOn '\n' content
  let raw := match raw.getLast? with
    | some [] => raw.dropLast
    | _ => raw
  raw.map fun l => if l.getLast? = some '\r' then l.dropLast else l

/-- `Decoder.parseProtocolLine`: first-match scheme dispatch. -/
def parseProtocolLine (line : Str) : Except Str Protocol :=
  if hasPrefix line "vmess://".data then ParseVMess line
  else if hasPrefix line "vless://".data then ParseVLESS line
  else if hasPrefix line "trojan://".data then ParseTrojan line
  else if hasPrefix line "ss://".data then ParseShadowsocks line
  else if hasPrefix line "hysteria2://".data ∨ hasPrefix line "hy2://".data then
    ParseHysteria2 line
  else if hasPrefix line "tuic://".data then ParseTUIC line
  else .error "unknown protocol type".data

/-- The protocols collected by the scan loop of
`Decoder.parseProtocols`: trimmed lines, empties skipped, failing
lines skipped. -/
def collectProtocols (lines : List Str) : List Protocol :=
  lines.filterMap fun raw =>
    let line := trimSpace raw
    if line.isEmpty then none
    else (parseProtocolLine line).toOption

/-- `Decoder.parseProtocols`: an error exactly when no line yielded a
protocol. -/
def parseProtocols (content : Str) : Except Str (List Protocol) :=
  let protocols := collectProtocols (scanLines content)
  if protocols.isEmpty then .error "no valid protocols found".data
  else .ok protocols

/-! ## Backend config synthesizer

Config documents (Go `map[string]interface{}` trees) are modelled as
association-list trees; map assignment replaces an existing key or
appends. -/

/-- A node of a backend config document. -/
inductive CVal where
  | s (v : Str)
  | i (v : Int)
  | b (v : Bool)
  | arr (xs : List CVal)
  | obj (fields : List (Str × CVal))

/-- Go map assignment `m[k] = v`. -/
def cset (m : List (Str × CVal)) (k : Str) (v : CVal) : List (Str × CVal) :=
  if m.any (fun kv => kv.1 = k) then
    m.map fun kv => if kv.1 = k then (k, v) else kv
  else m ++ [(k, v)]

/-- Map lookup on a config object. -/
def cget : List (Str × CVal) → Str → Option CVal
  | [], _ => none
  | (k', v) :: rest, k => if k' = k then some v else cget rest k

/-- The "Add TLS settings" section of `generateStreamSettings`
(`internal/tester/xray_configs.go`).  For `security=reality` the TLS
settings become the `realitySettings` block; no uTLS fingerprint
option exists anywhere in this dialect's generator. -/
def xrayTLSStep (p : Protocol) (streamSettings : List (Str × CVal)) :
    List (Str × CVal) :=
  if p.tls then
    let tlsSettings : List (Str × CVal) := [("allowInsecure".data, .b false)]
    let tlsSettings :=
      if ¬ p.sni.isEmpty then cset tlsSettings "serverName".data (.s p.sni)
      else tlsSettings
    match extraGet p "security".data with
    | some security =>
      if security = "reality".data then
        cset (cset streamSettings "security".data (.s "reality".data))
          "realitySettings".data (.obj tlsSettings)
      else if security = "xtls".data then
        cset (cset streamSettings "security".data (.s "xtls".data))
          "xtlsSettings".data (.obj tlsSettings)
      else
        cset (cset streamSettings "security".data (.s "tls".data))
          "tlsSettings".data (.obj tlsSettings)
    | none =>
      cset (cset streamSettings "security".data (.s "tls".data))
        "tlsSettings".data (.obj tlsSettings)
  else streamSettings

/-- The "Add network-specific settings" switch of
`generateStreamSettings` (`internal/tester/xray_configs.go`). -/
def xrayNetworkStep (p : Protocol) (streamSettings : List (Str × CVal)) :
    List (Str × CVal) :=
  if p.network = "ws".data then
    let wsSettings : List (Str × CVal) := []
    let wsSettings := match extraGet p "path".data with
      | some path => if ¬ path.isEmpty then cset wsSettings "path".data (.s path)
                     else wsSettings
      | none => wsSettings
    let wsSettings := match extraGet p "host".data with
      | some host => if ¬ host.isEmpty then
            cset wsSettings "headers".data (.obj [("Host".data, .s host)])
          else wsSettings
      | none => wsSettings
    if wsSettings.length > 0 then cset streamSettings "wsSettings".data (.obj wsSettings)
    else streamSettings
  else if p.network = "grpc".data then
    let grpcSettings : List (Str × CVal) := []
    let grpcSettings := match extraGet p "serviceName".data with
      | some sn => if ¬ sn.isEmpty then cset grpcSettings "serviceName".data (.s sn)
                   else grpcSettings
      | none => grpcSettings
    if grpcSettings.length > 0 then
      cset streamSettings "grpcSettings".data (.obj grpcSettings)
    else streamSettings
  else if p.network = "h2".data ∨ p.network = "http".data then
    let httpSettings : List (Str × CVal) := []
    let httpSettings := match extraGet p "path".data with
      | some path => if ¬ path.isEmpty then cset httpSettings "path".data (.s path)
                     else httpSettings
      | none => httpSettings
    let httpSettings := match extraGet p "host".data with
      | some host => if ¬ host.isEmpty then
            cset httpSettings "host".data (.arr [.s host])
          else httpSettings
      | none => httpSettings
    if httpSettings.length > 0 then
      cset streamSettings "httpSettings".data (.obj httpSettings)
    else streamSettings
  else if p.network = "quic".data then
    let quicSettings : List (Str × CVal) := [("security".data, .s "none".data)]
    let quicSettings := match extraGet p "headerType".data with
      | some ht => if ¬ ht.isEmpty then
            cset quicSettings "header".data (.obj [("type".data, .s ht)])
          else quicSettings
      | none => quicSettings
    cset streamSettings "quicSettings".data (.obj quicSettings)
  else if p.network = "kcp".data then
    let kcpSettings : List (Str × CVal) := []
    let kcpSettings := match extraGet p "headerType".data with
      | some ht => if ¬ ht.isEmpty then
            cset kcpSettings "header".data (.obj [("type".data, .s ht)])
          else kcpSettings
      | none => kcpSettings
    if kcpSettings.length > 0 then
      cset streamSettings "kcpSettings".data (.obj kcpSettings)
    else streamSettings
  else streamSettings

/-- `generateStreamSettings` (`internal/tester/xray_configs.go`):
start from the network field, add the TLS section, then the
network-specific section. -/
def generateStreamSettings (p : Protocol) : List (Str × CVal) :=
  xrayNetworkStep p (xrayTLSStep p [("network".data, .s p.network)])

/-- `generateSingboxVLESSOutbound` (`internal/tester/singbox_configs.go`,
current copy): the sing-box-dialect vless outbound.  For
`security=reality` the TLS block receives both a `reality` sub-block
and a `utls` sub-block whose fingerprint defaults to `"chrome"` when
neither `fp` nor `fingerprint` is a non-empty `Extra` entry. -/
def generateSingboxVLESSOutbound (p : Protocol) : List (Str × CVal) :=
  let outbound : List (Str × CVal) :=
    [("type".data, .s "vless".data),
     ("tag".data, .s "proxy".data),
     ("server".data, .s p.server),
     ("server_port".data, .i p.port),
     ("uuid".data, .s p.uuid)]
  let outbound := match extraGet p "flow".data with
    | some flow => if ¬ flow.isEmpty then cset outbound "flow".data (.s flow)
                   else outbound
    | none => outbound
  let outbound :=
    if ¬ p.network.isEmpty ∧ p.network ≠ "tcp".data then
      let transport : List (Str × CVal) := [("type".data, .s p.network)]
      let transport :=
        if p.network = "ws".data then
          let transport := match extraGet p "path".data with
            | some path => cset transport "path".data (.s path)
            | none => transport
          match extraGet p "host".data with
          | some host => cset transport "headers".data (.obj [("Host".data, .s host)])
          | none => transport
        else if p.network = "grpc".data then
          match extraGet p "serviceName".data with
          | some sn => cset transport "service_name".data (.s sn)
          | none => transport
        else transport
      cset outbound "transport".data (.obj transport)
    else outbound
  if p.tls then
    let tls : List (Str × CVal) := [("enabled".data, .b true)]
    let tls := if ¬ p.sni.isEmpty then cset tls "server_name".data (.s p.sni) else tls
    let tls :=
      match extraGet p "security".data with
      | some security =>
        if security = "reality".data then
          let reality : List (Str × CVal) := [("enabled".data, .b true)]
          let reality := match extraGet p "pbk".data with
            | some pk =>
              if ¬ pk.isEmpty then cset reality "public_key".data (.s pk)
              else match extraGet p "public_key".data with
                | some pk' => if ¬ pk'.isEmpty then
                      cset reality "public_key".data (.s pk')
                    else reality
                | none => reality
            | none => match extraGet p "public_key".data with
              | some pk' => if ¬ pk'.isEmpty then
                    cset reality "public_key".data (.s pk')
                  else reality
              | none => reality
          let reality := match extraGet p "sid".data with
            | some sid =>
              if ¬ sid.isEmpty then cset reality "short_id".data (.s sid)
              else match extraGet p "short_id".data with
                | some sid' => if ¬ sid'.isEmpty then
                      cset reality "short_id".data (.s sid')
                    else reality
                | none => reality
            | none => match extraGet p "short_id".data with
              | some sid' => if ¬ sid'.isEmpty then
                    cset reality "short_id".data (.s sid')
                  else reality
              | none => reality
          let tls := cset tls "reality".data (.obj reality)
          let utls : List (Str × CVal) := [("enabled".data, .b true)]
          let fingerprint := "chrome".data
          let fingerprint := match extraGet p "fp".data with
            | some fp =>
              if ¬ fp.isEmpty then fp
              else match extraGet p "fingerprint".data with
                | some fp' => if ¬ fp'.isEmpty then fp' else fingerprint
                | none => fingerprint
            | none => match extraGet p "fingerprint".data with
              | some fp' => if ¬ fp'.isEmpty then fp' else fingerprint
              | none => fingerprint
          let utls := cset utls "fingerprint".data (.s fingerprint)
          cset tls "utls".data (.obj utls)
        else tls
      | none => tls
    cset outbound "tls".data (.obj tls)
  else outbound

mutual

/-- Whether a key occurs anywhere in a config tree. -/
def cvalHasKey : CVal → Str → Bool
  | .obj fs, k => cfieldsHasKey fs k
  | .arr xs, k => citemsHasKey xs k
  | _, _ => false

def cfieldsHasKey : List (Str × CVal) → Str → Bool
  | [], _ => false
  | (k', v) :: rest, k => (k' == k) || cvalHasKey v k || cfieldsHasKey rest k

def citemsHasKey : List CVal → Str → Bool
  | [], _ => false
  | x :: rest, k => cvalHasKey x k || citemsHasKey rest k

end

/-- The uTLS fingerprint `generateSingboxVLESSOutbound` selects for a
REALITY outbound (`fp`, else `fingerprint`, else `"chrome"`) — a
projection of the generator's fingerprint branch for stating C1. -/
def singboxFingerprint (p : Protocol) : Str :=
  match extraGet p "fp".data with
  | some fp =>
    if ¬ fp.isEmpty then fp
    else match extraGet p "fingerprint".data with
      | some fp' => if ¬ fp'.isEmpty then fp' else "chrome".data
      | none => "chrome".data
  | none =>
    match extraGet p "fingerprint".data with
    | some fp' => if ¬ fp'.isEmpty then fp' else "chrome".data
    | none => "chrome".data

/-- A concrete vless REALITY protocol (the shape `ParseVLESS` produces
for `security=reality` with no fingerprint parameter). -/
def xrayRealityExample : Protocol :=
  { ptype := .vless
    name := "example.com:443".data
    server := "example.com".data
    port := 443
    uuid := "uuid".data
    network := "tcp".data
    tls := true
    sni := "example.com".data
    raw := "vless://uuid@example.com:443?security=reality".data
    extra := [("security".data, "reality".data), ("flow".data, []),
              ("encryption".data, []), ("headerType".data, []),
              ("host".data, []), ("path".data, [])] }

/-! ## Test orchestrator
`TestRunner.RunTests` / `TestRunner.testProtocol`
(`internal/tester/runner.go`).  The effectful stages (proxy start,
HTTP client, the five checkers) are modelled by an environment record
holding each stage's outcome; `testProtocol` is the pure control flow
of the Go function over that environment. -/

structure ConnectivityResult where
  connected : Bool
  deriving DecidableEq, Repr

structure PerformanceResult where
  val : Nat
  deriving DecidableEq, Repr

/-- Geo-access sub-result; `accessPercentage` is the summary field the
DNS stage reads. -/
structure GeoAccessResult where
  accessPercentage : Int
  val : Nat := 0
  deriving DecidableEq, Repr

structure DNSResult where
  val : Nat
  deriving DecidableEq, Repr

structure PrivacyResult where
  val : Nat
  deriving DecidableEq, Repr

/-- `models.TestResult` (the fields the orchestrator writes). -/
structure TestResult where
  protocol : Protocol
  success : Bool := false
  error : Str := []
  connectivity : Option ConnectivityResult := none
  performance : Option PerformanceResult := none
  geoAccess : Option GeoAccessResult := none
  dns : Option DNSResult := none
  privacy : Option PrivacyResult := none
  deriving DecidableEq, Repr

/-- The per-run enable flags of `models.TestConfig`. -/
structure TestConfig where
  enableSpeedTest : Bool
  enableGeoTest : Bool
  enableDNSTest : Bool
  enablePrivacyTest : Bool
  deriving DecidableEq, Repr

/-- Outcomes of the effectful steps of one worker's pipeline.  The
connectivity checker returns a result pointer and an error; on error
the pointer may be absent (`Except.error` carries it), on success it
is present.  The DNS stage outcome may depend on the expected-country
string computed from the geo stage. -/
structure TestEnv where
  startErr : Option Str
  clientErr : Option Str
  connectivity : Except (Option ConnectivityResult) ConnectivityResult
  perf : Except Unit PerformanceResult
  geo : Except Unit GeoAccessResult
  dns : Str → Except Unit DNSResult
  privacy : Except Unit PrivacyResult

/-- The "performance tests if enabled" block of `testProtocol`. -/
def stagePerf (cfg : TestConfig) (env : TestEnv) (result : TestResult) : TestResult :=
  if cfg.enableSpeedTest then
    match env.perf with
    | .ok r => { result with performance := some r }
    | .error _ => result
  else result

/-- The "geo-access tests if enabled" block of `testProtocol`. -/
def stageGeo (cfg : TestConfig) (env : TestEnv) (result : TestResult) : TestResult :=
  if cfg.enableGeoTest then
    match env.geo with
    | .ok r => { result with geoAccess := some r }
    | .error _ => result
  else result

/-- The "DNS tests if enabled" block of `testProtocol` (the expected
country is derived from the geo sub-result already recorded). -/
def stageDNS (cfg : TestConfig) (env : TestEnv) (result : TestResult) : TestResult :=
  if cfg.enableDNSTest then
    let expectedCountry := match result.geoAccess with
      | some g => if g.accessPercentage > 50 then "US".data else []
      | none => []
    match env.dns expectedCountry with
    | .ok r => { result with dns := some r }
    | .error _ => result
  else result

/-- The "privacy tests if enabled" block of `testProtocol`. -/
def stagePrivacy (cfg : TestConfig) (env : TestEnv) (result : TestResult) : TestResult :=
  if cfg.enablePrivacyTest then
    match env.privacy with
    | .ok r => { result with privacy := some r }
    | .error _ => result
  else result

/-- `TestRunner.testProtocol`: start the proxy and obtain the client
(either failure returns immediately), run connectivity as the gating
stage, then the four optional stage blocks in order, each absorbed on
failure. -/
def testProtocol (cfg : TestConfig) (env : TestEnv) (p : Protocol) : TestResult :=
  let result : TestResult := { protocol := p, success := false }
  match env.startErr with
  | some e => { result with error := "Failed to start proxy: ".data ++ e }
  | none =>
  match env.clientErr with
  | some e => { result with error := "Failed to create HTTP client: ".data ++ e }
  | none =>
  match env.connectivity with
  | .error copt =>
    { result with error := "Connectivity test failed".data, connectivity := copt }
  | .ok conn =>
    if ¬ conn.connected then
      { result with error := "Connectivity test failed".data, connectivity := some conn }
    else
      stagePrivacy cfg env (stageDNS cfg env (stageGeo cfg env (stagePerf cfg env
        { result with connectivity := some conn, success := true })))

instance : Inhabited Protocol :=
  ⟨{ ptype := .vmess, name := [], server := [], port := 0 }⟩

/-- One completed worker writing its result at the target's original
index (the mutex-guarded `results[idx] = result`). -/
def applyWrite (res : List (Option TestResult)) (w : Nat × TestResult) :
    List (Option TestResult) :=
  res.set w.1 (some w.2)

/-- `TestRunner.RunTests` up to scheduling: a pre-sized slice receives
each worker's result at that worker's input index, in an arbitrary
completion order `order` (each worker index appearing exactly once
when `order` is a permutation of the input indices). -/
def runTestsModel (cfg : TestConfig) (envs : Nat → TestEnv) (ps : List Protocol)
    (order : List Nat) : List (Option TestResult) :=
  (order.map fun i => (i, testProtocol cfg (envs i) (ps.getD i default))).foldl
    applyWrite (List.replicate ps.length none)

/-! ## DNS leak classifier
`DNSChecker.checkIfLeaking` / `DNSChecker.CheckDNSLeak`
(`internal/checks/performance.go`). -/

/-- `strings.Contains`. -/
def containsSub (l sub : Str) : Bool := l.tails.any (fun t => hasPrefix t sub)

/-- The hard-coded public DNS list of `checkIfLeaking`. -/
def commonISPDNS : List Str :=
  ["8.8.8.8".data, "8.8.4.4".data,
   "1.1.1.1".data, "1.0.0.1".data,
   "208.67.222.222".data, "208.67.220.220".data]

/-- `DNSChecker.checkIfLeaking`: scan the detected servers against the
public-DNS list; a match returns `false`, and falling through the
loops also returns `false`. -/
def checkIfLeaking (dnsServers : List Str) (_expectedCountry : Str) : Bool :=
  match dnsServers.findSome? (fun dns =>
      commonISPDNS.findSome? (fun isp =>
        if containsSub dns isp then some false else none)) with
  | some r => r
  | none => false

/-- The `IsLeaking` flag produced by `DNSChecker.CheckDNSLeak` as a
function of the detected server list (the only assignment to the flag
is guarded by `len(dnsServers) > 0`; the detection-failure path and
the initial value leave it `false`). -/
def checkDNSLeakIsLeaking (dnsServers : List Str) (expectedCountry : Str) : Bool :=
  if dnsServers.length > 0 then checkIfLeaking dnsServers expectedCountry
  else false

/-- The `VMessConfig` produced by `ParseVMess`'s pipeline (a
projection of `ParseVMess` up to the port conversion, for stating
per-field facts). -/
def vmessConfigOf (url : Str) : Option VMessConfig :=
  match vmessDecodeStep (trimPrefix url "vmess://".data) with
  | .error _ => none
  | .ok decoded => (jsonParse decoded).bind jUnmarshalVMess

/-- An optionally-signed non-empty decimal digit string (what the
claim calls "numeric"). -/
def isNumericLit (s : Str) : Bool :=
  match s with
  | [] => false
  | c :: rest =>
    let ds := if c = '-' ∨ c = '+' then rest else c :: rest
    !ds.isEmpty && ds.all (isDigitCh ·)

/-- Whether a JSON port value is numeric or a numeric string (the
forms `stringOrNumber` + `strconv.Atoi` can accept). -/
def portValueNumeric (v : JValue) : Bool :=
  match v with
  | .jnum raw => isNumericLit (trimSpace raw)
  | .jstr s => isNumericLit s
  | _ => false

/-- Object-typed lookup in a config tree. -/
def cgetObj (m : List (Str × CVal)) (k : Str) : Option (List (Str × CVal)) :=
  match cget m k with
  | some (.obj fs) => some fs
  | _ => none

/-- String-typed lookup in a config tree. -/
def cgetStr (m : List (Str × CVal)) (k : Str) : Option Str :=
  match cget m k with
  | some (.s v) => some v
  | _ => none

/-- Bool-typed lookup in a config tree. -/
def cgetBool (m : List (Str × CVal)) (k : Str) : Option Bool :=
  match cget m k with
  | some (.b v) => some v
  | _ => none

/-! ## Helper lemmas -/

theorem cget_map_replace_self (m : List (Str × CVal)) (k : Str) (v : CVal)
    (h : m.any (fun kv => kv.1 = k) = true) :
    cget (m.map fun kv => if kv.1 = k then (k, v) else kv) k = some v := by
  induction m with
  | nil => simp at h
  | cons hd tl ih =>
    obtain ⟨k₀, v₀⟩ := hd
    rw [List.map_cons]
    by_cases hhd : k₀ = k
    · rw [if_pos hhd]
      simp [cget]
    · rw [if_neg hhd]
      have h' : tl.any (fun kv => kv.1 = k) = true := by
        simp only [List.any_cons, Bool.or_eq_true, decide_eq_true_eq] at h
        rcases h with h | h
        · exact absurd h hhd
        · exact h
      simp only [cget, hhd, if_false]
      exact ih h'

theorem cget_append_single_self (m : List (Str × CVal)) (k : Str) (v : CVal) :
    cget m k = none → cget (m ++ [(k, v)]) k = some v := by
  induction m with
  | nil => intro _; simp [cget]
  | cons hd tl ih =>
    intro h
    obtain ⟨k₀, v₀⟩ := hd
    by_cases hhd : k₀ = k
    · rw [show cget ((k₀, v₀) :: tl) k = some v₀ from by
        simp only [cget, if_pos hhd]] at h
      exact Option.noConfusion h
    · simp only [cget, hhd, if_false] at h
      simp only [List.cons_append, cget, hhd, if_false]
      exact ih h

theorem cget_any_of_some (m : List (Str × CVal)) (k : Str)
    (h : m.any (fun kv => kv.1 = k) = false) : cget m k = none := by
  induction m with
  | nil => rfl
  | cons hd tl ih =>
    simp only [List.any_cons, Bool.or_eq_false_iff, decide_eq_false_iff_not] at h
    simp [cget, h.1, ih h.2]

theorem cget_cset_self (m : List (Str × CVal)) (k : Str) (v : CVal) :
    cget (cset m k v) k = some v := by
  unfold cset
  by_cases h : m.any (fun kv => kv.1 = k)
  · simp only [h, if_true]
    exact cget_map_replace_self m k v h
  · simp only [eq_false_of_ne_true h, Bool.false_eq_true, if_false]
    exact cget_append_single_self m k v
      (cget_any_of_some m k (eq_false_of_ne_true h))

theorem cget_map_replace_ne (m : List (Str × CVal)) (k k' : Str) (v : CVal)
    (h : k' ≠ k) :
    cget (m.map fun kv => if kv.1 = k then (k, v) else kv) k' = cget m k' := by
  induction m with
  | nil => rfl
  | cons hd tl ih =>
    obtain ⟨k₀, v₀⟩ := hd
    rw [List.map_cons]
    by_cases hhd : k₀ = k
    · subst hhd
      have hne : ¬ k₀ = k' := fun hh => h hh.symm
      rw [if_pos rfl]
      simp only [cget, hne, if_false]
      exact ih
    · rw [if_neg hhd]
      by_cases hk' : k₀ = k'
      · simp [cget, hk']
      · simp only [cget, hk', if_false]
        exact ih

theorem cget_append_single_ne (m : List (Str × CVal)) (k k' : Str) (v : CVal)
    (h : k' ≠ k) : cget (m ++ [(k, v)]) k' = cget m k' := by
  induction m with
  | nil =>
    have : ¬ k = k' := fun hh => h hh.symm
    simp only [List.nil_append, cget, this, if_false]
  | cons hd tl ih =>
    obtain ⟨k₀, v₀⟩ := hd
    by_cases hk' : k₀ = k'
    · simp [cget, hk']
    · simp [cget, hk', ih]

theorem cget_cset_ne (m : List (Str × CVal)) (k k' : Str) (v : CVal)
    (h : k' ≠ k) : cget (cset m k v) k' = cget m k' := by
  unfold cset
  by_cases hm : m.any (fun kv => kv.1 = k)
  · simp only [hm, if_true]
    exact cget_map_replace_ne m k k' v h
  · simp only [eq_false_of_ne_true hm, Bool.false_eq_true, if_false]
    exact cget_append_single_ne m k k' v h

/-- A successful `goAtoi` needs a leading digit or sign. -/
theorem goAtoi_none_of_head (c : Char) (t : Str)
    (hd : isDigitCh c = false) (hm : c ≠ '-') (hp : c ≠ '+') :
    goAtoi (c :: t) = none := by
  simp only [goAtoi]
  rw [if_neg hm, if_neg hp]
  simp [hd]

/-- `goAtoi` on a non-empty all-digit list in range. -/
theorem goAtoi_digits (l : Str) (hne : ¬ l.isEmpty)
    (hdig : l.all (isDigitCh ·)) (hr : digitsVal l < 2 ^ 63) :
    goAtoi l = some ((digitsVal l : Int)) := by
  cases l with
  | nil => simp at hne
  | cons c rest =>
    have hcd : isDigitCh c = true := by
      simp only [List.all_cons, Bool.and_eq_true] at hdig
      exact hdig.1
    have hcm : c ≠ '-' := by
      intro h; rw [h] at hcd; simp [isDigitCh] at hcd
    have hcp : c ≠ '+' := by
      intro h; rw [h] at hcd; simp [isDigitCh] at hcd
    simp only [goAtoi]
    rw [if_neg hcm, if_neg hcp]
    simp only [hdig]
    simp only [List.isEmpty_cons, Bool.false_eq_true, if_false]
    rw [if_pos (lt_of_lt_of_eq hr (by norm_num))]
    simp

/-- `dropWhile` does nothing on a list that falsifies the predicate
everywhere. -/
theorem dropWhile_eq_self_of_all {p : Char → Bool} (l : Str)
    (h : ∀ c ∈ l, p c = false) : l.dropWhile p = l := by
  cases l with
  | nil => rfl
  | cons x xs =>
    rw [List.dropWhile_cons, h x (by simp)]
    simp

/-- `trimSpace` keeps a non-space head character. -/
theorem trimSpace_cons_of_not_space (c : Char) (l : Str)
    (h : isSpaceCh c = false) : ∃ t, trimSpace (c :: l) = c :: t := by
  unfold trimSpace
  rw [List.dropWhile_cons]
  simp only [h, Bool.false_eq_true, if_false]
  rw [show (c :: l).reverse = l.reverse ++ [c] from by simp]
  rw [List.dropWhile_append]
  by_cases he : (l.reverse.dropWhile (isSpaceCh ·)).isEmpty
  · rw [if_pos he]
    rw [List.dropWhile_cons]
    simp only [h, Bool.false_eq_true, if_false, List.dropWhile_nil]
    exact ⟨[], by simp⟩
  · rw [if_neg he]
    exact ⟨(l.reverse.dropWhile (isSpaceCh ·)).reverse, by simp⟩

/-- `trimSpace` leaves a space-free list unchanged. -/
theorem trimSpace_eq_self (l : Str) (h : ∀ c ∈ l, isSpaceCh c = false) :
    trimSpace l = l := by
  unfold trimSpace
  rw [dropWhile_eq_self_of_all l h,
    dropWhile_eq_self_of_all l.reverse (fun c hc => h c (by simpa using hc)),
    List.reverse_reverse]

theorem cfieldsHasKey_append_false (a b : List (Str × CVal)) (key : Str)
    (ha : cfieldsHasKey a key = false) (hb : cfieldsHasKey b key = false) :
    cfieldsHasKey (a ++ b) key = false := by
  induction a with
  | nil => simpa using hb
  | cons hd tl ih =>
    obtain ⟨k₀, v₀⟩ := hd
    simp only [cfieldsHasKey, Bool.or_eq_false_iff] at ha
    simp only [List.cons_append, cfieldsHasKey, Bool.or_eq_false_iff]
    exact ⟨ha.1, ih ha.2⟩

theorem cfieldsHasKey_map_replace_false (m : List (Str × CVal)) (k key : Str)
    (v : CVal) (hm : cfieldsHasKey m key = false)
    (hk : (k == key) = false) (hv : cvalHasKey v key = false) :
    cfieldsHasKey (m.map fun kv => if kv.1 = k then (k, v) else kv) key = false := by
  induction m with
  | nil => rfl
  | cons hd tl ih =>
    obtain ⟨k₀, v₀⟩ := hd
    simp only [cfieldsHasKey, Bool.or_eq_false_iff] at hm
    rw [List.map_cons]
    by_cases hhd : k₀ = k
    · rw [if_pos hhd]
      simp only [cfieldsHasKey, Bool.or_eq_false_iff]
      exact ⟨⟨hk, hv⟩, ih hm.2⟩
    · rw [if_neg hhd]
      simp only [cfieldsHasKey, Bool.or_eq_false_iff]
      exact ⟨hm.1, ih hm.2⟩

theorem cfieldsHasKey_cset_false (m : List (Str × CVal)) (k key : Str)
    (v : CVal) (hm : cfieldsHasKey m key = false)
    (hk : (k == key) = false) (hv : cvalHasKey v key = false) :
    cfieldsHasKey (cset m k v) key = false := by
  unfold cset
  by_cases hany : m.any (fun kv => kv.1 = k)
  · simp only [hany, if_true]
    exact cfieldsHasKey_map_replace_false m k key v hm hk hv
  · simp only [eq_false_of_ne_true hany, Bool.false_eq_true, if_false]
    exact cfieldsHasKey_append_false m [(k, v)] key hm
      (by simp [cfieldsHasKey, hk, hv])

/-- Lookup through a conditionally-inserted key. -/
theorem cget_condSet (m : List (Str × CVal)) (key K : Str) (v : CVal)
    (c : Prop) [Decidable c] (hK : key ≠ K) :
    cget (if c then cset m K v else m) key = cget m key := by
  by_cases h : c
  · rw [if_pos h]
    exact cget_cset_ne m K key v hK
  · rw [if_neg h]

/-- Key-absence through a conditionally-inserted key. -/
theorem hasKey_condSet (m : List (Str × CVal)) (key K : Str) (v : CVal)
    (c : Prop) [Decidable c] (hm : cfieldsHasKey m key = false)
    (hK : (K == key) = false) (hv : cvalHasKey v key = false) :
    cfieldsHasKey (if c then cset m K v else m) key = false := by
  by_cases h : c
  · rw [if_pos h]
    exact cfieldsHasKey_cset_false m K key v hm hK hv
  · rw [if_neg h]
    exact hm

/-- Lookups of the TLS/security keys pass through the network-specific
section unchanged. -/
theorem cget_xrayNetworkStep (p : Protocol) (m : List (Str × CVal)) (key : Str)
    (h1 : key ≠ "wsSettings".data) (h2 : key ≠ "grpcSettings".data)
    (h3 : key ≠ "httpSettings".data) (h4 : key ≠ "quicSettings".data)
    (h5 : key ≠ "kcpSettings".data) :
    cget (xrayNetworkStep p m) key = cget m key := by
  unfold xrayNetworkStep
  by_cases hws : p.network = "ws".data
  · rw [if_pos hws]
    exact cget_condSet m key _ _ _ h1
  rw [if_neg hws]
  by_cases hgrpc : p.network = "grpc".data
  · rw [if_pos hgrpc]
    exact cget_condSet m key _ _ _ h2
  rw [if_neg hgrpc]
  by_cases hh2 : p.network = "h2".data ∨ p.network = "http".data
  · rw [if_pos hh2]
    exact cget_condSet m key _ _ _ h3
  rw [if_neg hh2]
  by_cases hquic : p.network = "quic".data
  · rw [if_pos hquic]
    exact cget_cset_ne m _ key _ h4
  rw [if_neg hquic]
  by_cases hkcp : p.network = "kcp".data
  · rw [if_pos hkcp]
    exact cget_condSet m key _ _ _ h5
  rw [if_neg hkcp]

/-- The network-specific section introduces no `utls` or `fingerprint`
key anywhere. -/
theorem hasKey_xrayNetworkStep (p : Protocol) (m : List (Str × CVal)) (key : Str)
    (hkey : key = "utls".data ∨ key = "fingerprint".data)
    (hm : cfieldsHasKey m key = false) :
    cfieldsHasKey (xrayNetworkStep p m) key = false := by
  rcases hkey with hkey | hkey <;> subst hkey <;>
  · unfold xrayNetworkStep
    by_cases hws : p.network = "ws".data
    · rw [if_pos hws]
      refine hasKey_condSet m _ _ _ _ hm (by decide) ?_
      simp only [cvalHasKey]
      repeat' split
      all_goals simp +decide [cset, cfieldsHasKey, cvalHasKey, citemsHasKey]
    rw [if_neg hws]
    by_cases hgrpc : p.network = "grpc".data
    · rw [if_pos hgrpc]
      refine hasKey_condSet m _ _ _ _ hm (by decide) ?_
      simp only [cvalHasKey]
      repeat' split
      all_goals simp +decide [cset, cfieldsHasKey, cvalHasKey, citemsHasKey]
    rw [if_neg hgrpc]
    by_cases hh2 : p.network = "h2".data ∨ p.network = "http".data
    · rw [if_pos hh2]
      refine hasKey_condSet m _ _ _ _ hm (by decide) ?_
      simp only [cvalHasKey]
      repeat' split
      all_goals simp +decide [cset, cfieldsHasKey, cvalHasKey, citemsHasKey]
    rw [if_neg hh2]
    by_cases hquic : p.network = "quic".data
    · rw [if_pos hquic]
      refine cfieldsHasKey_cset_false m _ _ _ hm (by decide) ?_
      simp only [cvalHasKey]
      repeat' split
      all_goals simp +decide [cset, cfieldsHasKey, cvalHasKey, citemsHasKey]
    rw [if_neg hquic]
    by_cases hkcp : p.network = "kcp".data
    · rw [if_pos hkcp]
      refine hasKey_condSet m _ _ _ _ hm (by decide) ?_
      simp only [cvalHasKey]
      repeat' split
      all_goals simp +decide [cset, cfieldsHasKey, cvalHasKey, citemsHasKey]
    rw [if_neg hkcp]
    exact hm

/-- In the REALITY case the TLS section sets `security = "reality"`
and a `realitySettings` block. -/
theorem cget_xrayTLSStep_reality (p : Protocol) (m : List (Str × CVal))
    (hsec : extraGet p "security".data = some "reality".data)
    (htls : p.tls = true) :
    cget (xrayTLSStep p m) "security".data = some (.s "reality".data) ∧
    ∃ ts, cget (xrayTLSStep p m) "realitySettings".data = some (.obj ts) := by
  unfold xrayTLSStep
  simp only [htls, if_true, hsec]
  constructor
  · rw [cget_cset_ne _ _ _ _ (by decide), cget_cset_self]
  · exact ⟨_, cget_cset_self _ _ _⟩

/-- The TLS section introduces no `utls` or `fingerprint` key. -/
theorem hasKey_xrayTLSStep (p : Protocol) (m : List (Str × CVal)) (key : Str)
    (hkey : key = "utls".data ∨ key = "fingerprint".data)
    (hm : cfieldsHasKey m key = false) :
    cfieldsHasKey (xrayTLSStep p m) key = false := by
  rcases hkey with hkey | hkey <;> subst hkey <;>
  · unfold xrayTLSStep
    repeat' split
    all_goals
      first
      | exact hm
      | exact cfieldsHasKey_cset_false _ _ _ _
          (cfieldsHasKey_cset_false _ _ _ _ hm (by decide) (by decide))
          (by decide)
          (by simp +decide [cset, cfieldsHasKey, cvalHasKey, citemsHasKey])

/-! ## C10 — the DNS-leak classification is constantly false -/

/-- C10: for every detected server list and expected country,
`checkIfLeaking` returns `false` — a public-DNS match returns `false`
and the fall-through also returns `false` — so `CheckDNSLeak` can
never set `IsLeaking` and the leak-details branch is unreachable. -/
theorem checkIfLeaking_always_false (dnsServers : List Str) (expectedCountry : Str) :
    checkIfLeaking dnsServers expectedCountry = false ∧
    checkDNSLeakIsLeaking dnsServers expectedCountry = false := by
  have h : checkIfLeaking dnsServers expectedCountry = false := by
    unfold checkIfLeaking
    cases hf : dnsServers.findSome? (fun dns =>
        commonISPDNS.findSome? (fun isp =>
          if containsSub dns isp then some false else none)) with
    | none => rfl
    | some r =>
      obtain ⟨dns, _, hdns⟩ := List.exists_of_findSome?_eq_some hf
      obtain ⟨isp, _, hisp⟩ := List.exists_of_findSome?_eq_some hdns
      by_cases hc : containsSub dns isp = true
      · simp only [hc, if_true, Option.some.injEq] at hisp
        simp [← hisp]
      · simp [hc] at hisp
  refine ⟨h, ?_⟩
  unfold checkDNSLeakIsLeaking
  by_cases hl : dnsServers.length > 0 <;> simp [hl, h]

/-! ## C5 — connectivity is a gating stage -/

/-- C5: when the proxy start and client construction succeed but the
connectivity stage fails (the checker errors or reports not
connected), the produced result has `success = false` and absent
performance, geo, DNS and privacy sub-results, and no later stage is
attempted: the result does not depend on the later stages' outcomes. -/
theorem connectivity_gating (cfg : TestConfig) (env : TestEnv) (p : Protocol)
    (hs : env.startErr = none) (hc : env.clientErr = none)
    (hfail : ∀ c, env.connectivity = .ok c → c.connected = false) :
    (testProtocol cfg env p).success = false ∧
    (testProtocol cfg env p).performance = none ∧
    (testProtocol cfg env p).geoAccess = none ∧
    (testProtocol cfg env p).dns = none ∧
    (testProtocol cfg env p).privacy = none ∧
    (∀ env' : TestEnv, env'.startErr = none → env'.clientErr = none →
      env'.connectivity = env.connectivity →
      testProtocol cfg env' p = testProtocol cfg env p) := by
  cases hconn : env.connectivity with
  | error copt =>
    have hmain : testProtocol cfg env p =
        { protocol := p, success := false,
          error := "Connectivity test failed".data, connectivity := copt } := by
      simp only [testProtocol, hs, hc, hconn]
    refine ⟨by rw [hmain], by rw [hmain], by rw [hmain], by rw [hmain],
      by rw [hmain], ?_⟩
    intro env' h1 h2 h3
    simp only [testProtocol, hs, hc, h1, h2, h3, hconn]
  | ok c =>
    have hcf : c.connected = false := hfail c hconn
    have hmain : testProtocol cfg env p =
        { protocol := p, success := false,
          error := "Connectivity test failed".data, connectivity := some c } := by
      simp only [testProtocol, hs, hc, hconn, hcf]
      simp
    refine ⟨by rw [hmain], by rw [hmain], by rw [hmain], by rw [hmain],
      by rw [hmain], ?_⟩
    intro env' h1 h2 h3
    simp only [testProtocol, hs, hc, h1, h2, h3, hconn, hcf]
    simp

/-- Witness for C5 at a concrete environment whose connectivity
checker reports not connected. -/
theorem connectivity_gating_witness :
    (testProtocol ⟨true, true, true, true⟩
      ⟨none, none, .ok ⟨false⟩, .ok ⟨1⟩, .ok ⟨60, 2⟩, fun _ => .ok ⟨3⟩, .ok ⟨4⟩⟩
      default).success = false ∧
    (testProtocol ⟨true, true, true, true⟩
      ⟨none, none, .ok ⟨false⟩, .ok ⟨1⟩, .ok ⟨60, 2⟩, fun _ => .ok ⟨3⟩, .ok ⟨4⟩⟩
      default).performance = none := by
  have h := connectivity_gating ⟨true, true, true, true⟩
    ⟨none, none, .ok ⟨false⟩, .ok ⟨1⟩, .ok ⟨60, 2⟩, fun _ => .ok ⟨3⟩, .ok ⟨4⟩⟩
    default rfl rfl (by intro c hc; cases hc; rfl)
  exact ⟨h.1, h.2.1⟩

/-! ## C3 — the base64 fallback chain -/

/-- C3: the subscription decoder's `decodeBase64` and the inlined
chains of `ParseShadowsocks` and `ParseVMess` all try standard, then
URL-safe, then raw-unpadded base64 in that fixed order, return the
first successful decoding, and fail exactly when all three decodings
fail. -/
theorem base64_fallback_chain (s : Str) :
    (∀ r, decodeBase64 s = .ok r ↔ base64FallbackSpec s = some r) ∧
    (∀ r, ssDecodeStep s = .ok r ↔ base64FallbackSpec s = some r) ∧
    (∀ r, vmessDecodeStep s = .ok r ↔ base64FallbackSpec s = some r) ∧
    (∀ r, base64FallbackSpec s = some r ↔
      (b64DecodeStd s = some r ∨
       (b64DecodeStd s = none ∧ b64DecodeURL s = some r) ∨
       (b64DecodeStd s = none ∧ b64DecodeURL s = none ∧
        b64DecodeRawStd s = some r))) ∧
    ((decodeBase64 s).isOk = false ↔
      b64DecodeStd s = none ∧ b64DecodeURL s = none ∧ b64DecodeRawStd s = none) ∧
    ((ssDecodeStep s).isOk = false ↔
      b64DecodeStd s = none ∧ b64DecodeURL s = none ∧ b64DecodeRawStd s = none) ∧
    ((vmessDecodeStep s).isOk = false ↔
      b64DecodeStd s = none ∧ b64DecodeURL s = none ∧ b64DecodeRawStd s = none) := by
  cases h₁ : b64DecodeStd s <;> cases h₂ : b64DecodeURL s <;>
    cases h₃ : b64DecodeRawStd s <;>
      simp [decodeBase64, ssDecodeStep, vmessDecodeStep, base64FallbackSpec,
        h₁, h₂, h₃, Except.isOk, Except.toBool]

/-! ## C7 — which parsers require a password -/

/-- C7 counterexample: `ParseTUIC` accepts a URI whose password is
absent and returns a `Protocol` with an empty `Password` (only the
uuid is checked), and `ParseShadowsocks` likewise accepts an empty
password — refuting the claim that all four password-bearing parsers
reject an absent or empty password. -/
theorem password_required_counterexample :
    ((ParseTUIC "tuic://uuid@example.com:443".data).toOption.map
      (fun p => p.password)) = some [] ∧
    ((ParseShadowsocks "ss://YWVzOkBoOjgw".data).toOption.map
      (fun p => p.password)) = some [] := by
  constructor <;> rfl

/-- C7 amended: `ParseTrojan` and `ParseHysteria2` reject an absent or
empty password; `ParseTUIC` rejects only a missing uuid (its password
may be empty), and `ParseShadowsocks` imposes no password check. -/
theorem password_required_amended :
    (∀ s p, ParseTrojan s = .ok p → p.password ≠ []) ∧
    (∀ s p, ParseHysteria2 s = .ok p → p.password ≠ []) ∧
    (∀ s p, ParseTUIC s = .ok p → p.uuid ≠ []) := by
  refine ⟨?_, ?_, ?_⟩
  · intro s p h
    simp only [ParseTrojan] at h
    split at h
    · exact absurd h (by simp)
    next u heq =>
      split at h
      · exact absurd h (by simp)
      next hpw =>
        split at h
        · exact absurd h (by simp)
        next hhost =>
          split at h
          · exact absurd h (by simp)
          next port hport =>
            cases h
            simpa [List.isEmpty_iff] using hpw
  · intro s p h
    simp only [ParseHysteria2] at h
    split at h
    · exact absurd h (by simp)
    next u heq =>
      split at h
      · exact absurd h (by simp)
      next hpw =>
        split at h
        · exact absurd h (by simp)
        next hhost =>
          split at h
          · exact absurd h (by simp)
          next port hport =>
            cases h
            simpa [List.isEmpty_iff] using hpw
  · intro s p h
    simp only [ParseTUIC] at h
    split at h
    · exact absurd h (by simp)
    next u heq =>
      split at h
      · exact absurd h (by simp)
      next huuid =>
        split at h
        · exact absurd h (by simp)
        next hhost =>
          split at h
          · exact absurd h (by simp)
          next port hport =>
            cases h
            simpa [List.isEmpty_iff] using huuid

/-- Witness for the amended C7 at concrete URIs. -/
theorem password_required_witness :
    ("p".data : Str) ≠ ([] : Str) ∧ ("u".data : Str) ≠ ([] : Str) :=
  ⟨password_required_amended.1 "trojan://p@h".data _ rfl,
   password_required_amended.2.2 "tuic://u:p@h".data _ rfl⟩

/-! ## C8 — SNI resolution order -/

/-- C8 counterexample: `ParseTUIC` does not consult the `peer`
parameter and falls back to the host instead of leaving SNI empty —
with `peer=p.example` and no `sni`, the claim predicts SNI
`p.example`, and with neither parameter it predicts an empty SNI, but
the code yields the host `example.com` in both cases. -/
theorem sni_resolution_counterexample :
    ((ParseTUIC "tuic://uuid:pw@example.com:443?peer=p.example".data).toOption.map
      (fun p => p.sni)) = some "example.com".data ∧
    "example.com".data ≠ "p.example".data ∧
    ((ParseTUIC "tuic://uuid:pw@example.com:443".data).toOption.map
      (fun p => p.sni)) = some "example.com".data ∧
    "example.com".data ≠ ([] : Str) := by
  refine ⟨rfl, by decide, rfl, by decide⟩

/-- C8 amended: vless resolves SNI as `sni` → `peer` → empty, trojan
as `sni` → `peer` → host, but tuic as `sni` → host, never reading
`peer` and never leaving SNI empty when the host is non-empty. -/
theorem sni_resolution_amended :
    (∀ s u p, urlParse s = some u → ParseVLESS s = .ok p →
      p.sni = (if (queryGet u "sni".data).isEmpty then queryGet u "peer".data
               else queryGet u "sni".data)) ∧
    (∀ s u p, urlParse s = some u → ParseTrojan s = .ok p →
      p.sni = (let x := if (queryGet u "sni".data).isEmpty
                        then queryGet u "peer".data
                        else queryGet u "sni".data
               if x.isEmpty then u.host else x)) ∧
    (∀ s u p, urlParse s = some u → ParseTUIC s = .ok p →
      p.sni = (if (queryGet u "sni".data).isEmpty then u.host
               else queryGet u "sni".data)) := by
  refine ⟨?_, ?_, ?_⟩
  · intro s u p hu h
    simp only [ParseVLESS, hu] at h
    split at h
    · exact absurd h (by simp)
    next huuid =>
      split at h
      · exact absurd h (by simp)
      next hhost =>
        split at h
        · exact absurd h (by simp)
        next port hport =>
          cases h
          rfl
  · intro s u p hu h
    simp only [ParseTrojan, hu] at h
    split at h
    · exact absurd h (by simp)
    next hpw =>
      split at h
      · exact absurd h (by simp)
      next hhost =>
        split at h
        · exact absurd h (by simp)
        next port hport =>
          cases h
          rfl
  · intro s u p hu h
    simp only [ParseTUIC, hu] at h
    split at h
    · exact absurd h (by simp)
    next huuid =>
      split at h
      · exact absurd h (by simp)
      next hhost =>
        split at h
        · exact absurd h (by simp)
        next port hport =>
          cases h
          rfl

/-- Witness for the amended C8 at a concrete trojan URI carrying only
a `peer` parameter. -/
theorem sni_resolution_witness :
    ((ParseTrojan "trojan://p@h?peer=q".data).toOption.map
      (fun p => p.sni)) = some "q".data := by
  have h := sni_resolution_amended.2.1 "trojan://p@h?peer=q".data _ _ rfl rfl
  simp only [h]
  rfl

/-! ## C9 — the default display name -/

/-- C9 counterexample: `ParseVMess` keeps the `ps` field verbatim, so
a payload with an empty `ps` yields an empty `Name` instead of the
claimed `"server:port"` default. -/
theorem name_default_counterexample :
    ((ParseVMess ("vmess://" ++
        "eyJ2IjoiMiIsInBzIjoiIiwiYWRkIjoiZXhhbXBsZS5jb20iLCJwb3J0Ijo0NDMsImlkIjoidXVpZCIsIm5ldCI6InRjcCIsInRscyI6IiJ9").data).toOption.map
      (fun p => p.name)) = some [] ∧
    ((ParseVMess ("vmess://" ++
        "eyJ2IjoiMiIsInBzIjoiIiwiYWRkIjoiZXhhbXBsZS5jb20iLCJwb3J0Ijo0NDMsImlkIjoidXVpZCIsIm5ldCI6InRjcCIsInRscyI6IiJ9").data).toOption.map
      (fun p => hostPortName p.server p.port)) = some "example.com:443".data ∧
    ([] : Str) ≠ "example.com:443".data := by
  refine ⟨rfl, rfl, by decide⟩

/-- C9 amended: the five non-vmess parsers default the display name to
`"server:port"` when the source carries none; `ParseVMess` copies the
`ps` field verbatim, so an absent `ps` leaves the name empty. -/
theorem name_default_amended :
    (∀ s u p, urlParse s = some u → u.fragment = [] → ParseVLESS s = .ok p →
      p.name = hostPortName p.server p.port) ∧
    (∀ s u p, urlParse s = some u → u.fragment = [] → ParseTrojan s = .ok p →
      p.name = hostPortName p.server p.port) ∧
    (∀ s u p, urlParse (replaceAll s "hy2://".data "hysteria2://".data) = some u →
      u.fragment = [] → ParseHysteria2 s = .ok p →
      p.name = hostPortName p.server p.port) ∧
    (∀ s u p, urlParse s = some u → u.fragment = [] → ParseTUIC s = .ok p →
      p.name = hostPortName p.server p.port) ∧
    (∀ s p, splitFirst '#' (trimPrefix s "ss://".data) = none →
      ParseShadowsocks s = .ok p → p.name = hostPortName p.server p.port) ∧
    (∀ s p cfg, vmessConfigOf s = some cfg → ParseVMess s = .ok p →
      p.name = cfg.ps) := by
  refine ⟨?_, ?_, ?_, ?_, ?_, ?_⟩
  · intro s u p hu hfrag h
    simp only [ParseVLESS, hu] at h
    split at h
    · exact absurd h (by simp)
    next h₁ =>
      split at h
      · exact absurd h (by simp)
      next h₂ =>
        split at h
        · exact absurd h (by simp)
        next port hport =>
          cases h
          simp [hfrag]
  · intro s u p hu hfrag h
    simp only [ParseTrojan, hu] at h
    split at h
    · exact absurd h (by simp)
    next h₁ =>
      split at h
      · exact absurd h (by simp)
      next h₂ =>
        split at h
        · exact absurd h (by simp)
        next port hport =>
          cases h
          simp [hfrag]
  · intro s u p hu hfrag h
    simp only [ParseHysteria2, hu] at h
    split at h
    · exact absurd h (by simp)
    next h₁ =>
      split at h
      · exact absurd h (by simp)
      next h₂ =>
        split at h
        · exact absurd h (by simp)
        next port hport =>
          cases h
          simp [hfrag]
  · intro s u p hu hfrag h
    simp only [ParseTUIC, hu] at h
    split at h
    · exact absurd h (by simp)
    next h₁ =>
      split at h
      · exact absurd h (by simp)
      next h₂ =>
        split at h
        · exact absurd h (by simp)
        next port hport =>
          cases h
          simp [hfrag]
  · intro s p hsplit h
    simp only [ParseShadowsocks, hsplit] at h
    split at h
    · exact absurd h (by simp)
    next d hdec =>
      split at h
      case isTrue hat =>
        split at h
        · exact absurd h (by simp)
        next ui si hsl =>
          split at h
          · exact absurd h (by simp)
          next meth pw hsf =>
            split at h
            · exact absurd h (by simp)
            next srv prt hsl₂ =>
              split at h
              · exact absurd h (by simp)
              next port hport =>
                cases h
                simp
      case isFalse hat => exact absurd h (by simp)
  · intro s p cfg hcfg h
    simp only [ParseVMess] at h
    split at h
    · exact absurd h (by simp)
    next d hdec =>
      split at h
      · exact absurd h (by simp)
      next doc hj =>
        split at h
        · exact absurd h (by simp)
        next config hum =>
          split at h
          · exact absurd h (by simp)
          next port hport =>
            cases h
            have hthis : vmessConfigOf s = some config := by
              unfold vmessConfigOf
              rw [hdec]
              show (jsonParse d).bind jUnmarshalVMess = some config
              rw [hj]
              show jUnmarshalVMess doc = some config
              exact hum
            have hce : cfg = config := by
              have := hcfg.symm.trans hthis
              injection this
            rw [hce]

/-- Witness for the amended C9 at concrete URIs without a display
name. -/
theorem name_default_witness :
    ((ParseVLESS "vless://u@h".data).toOption.map (fun p => p.name)) =
      some "h:443".data := by
  have h := name_default_amended.1 "vless://u@h".data _ _ rfl rfl rfl
  simp only [h]
  rfl

/-! ## C1 — REALITY fingerprint spoofing across the two dialects -/

theorem singboxFingerprint_ne_nil (p : Protocol) : singboxFingerprint p ≠ [] := by
  unfold singboxFingerprint
  split
  next fp hfp =>
    split
    next hne => simpa [List.isEmpty_iff] using hne
    next hne =>
      split
      next fp' hfp' =>
        split
        next hne' => simpa [List.isEmpty_iff] using hne'
        next => decide
      next => decide
  next =>
    split
    next fp' hfp' =>
      split
      next hne' => simpa [List.isEmpty_iff] using hne'
      next => decide
    next => decide

theorem singboxFingerprint_default (p : Protocol)
    (h1 : extraGet p "fp".data = none ∨ extraGet p "fp".data = some [])
    (h2 : extraGet p "fingerprint".data = none ∨
          extraGet p "fingerprint".data = some []) :
    singboxFingerprint p = "chrome".data := by
  unfold singboxFingerprint
  rcases h1 with h1 | h1 <;> rcases h2 with h2 | h2 <;> simp [h1, h2]

/-- C1 counterexample: for a vless REALITY protocol with no
fingerprint parameter, the xray-dialect stream settings do contain the
reality block (`security = "reality"` plus `realitySettings`) but no
`utls` or `fingerprint` entry anywhere — refuting the claim that both
dialects emit a fingerprint-spoofing entry. -/
theorem reality_fingerprint_counterexample :
    cgetStr (generateStreamSettings xrayRealityExample) "security".data =
      some "reality".data ∧
    (cgetObj (generateStreamSettings xrayRealityExample)
      "realitySettings".data).isSome = true ∧
    cfieldsHasKey (generateStreamSettings xrayRealityExample)
      "fingerprint".data = false ∧
    cfieldsHasKey (generateStreamSettings xrayRealityExample)
      "utls".data = false := by
  refine ⟨rfl, rfl, rfl, rfl⟩

/-- C1 amended: for every vless REALITY protocol (TLS true,
`security = "reality"`), the sing-box outbound's TLS block carries a
reality block with `enabled = true` and a `utls` block whose
fingerprint is non-empty and defaults to `"chrome"` when the protocol
carries no explicit fingerprint; the xray stream settings carry the
reality block but no `utls` or `fingerprint` entry anywhere. -/
theorem reality_fingerprint_amended (p : Protocol)
    (hsec : extraGet p "security".data = some "reality".data)
    (htls : p.tls = true) :
    (((cgetObj (generateSingboxVLESSOutbound p) "tls".data).bind
        (fun tls => cgetObj tls "reality".data)).bind
      (fun r => cgetBool r "enabled".data) = some true) ∧
    (((cgetObj (generateSingboxVLESSOutbound p) "tls".data).bind
        (fun tls => cgetObj tls "utls".data)).bind
      (fun u => cgetStr u "fingerprint".data) =
        some (singboxFingerprint p)) ∧
    singboxFingerprint p ≠ [] ∧
    ((extraGet p "fp".data = none ∨ extraGet p "fp".data = some []) →
     (extraGet p "fingerprint".data = none ∨
      extraGet p "fingerprint".data = some []) →
     singboxFingerprint p = "chrome".data) ∧
    cgetStr (generateStreamSettings p) "security".data = some "reality".data ∧
    (cgetObj (generateStreamSettings p) "realitySettings".data).isSome = true ∧
    cfieldsHasKey (generateStreamSettings p) "utls".data = false ∧
    cfieldsHasKey (generateStreamSettings p) "fingerprint".data = false := by
  refine ⟨?_, ?_, singboxFingerprint_ne_nil p, singboxFingerprint_default p,
    ?_, ?_, ?_, ?_⟩
  · simp only [generateSingboxVLESSOutbound, hsec, htls, if_true]
    simp only [cgetObj, cget_cset_self, Option.some_bind]
    rw [cget_cset_ne _ _ _ _ (by decide), cget_cset_self]
    simp only [Option.some_bind]
    repeat' split
    all_goals simp +decide [cset, cget, cgetBool]
  · simp only [generateSingboxVLESSOutbound, hsec, htls, if_true]
    simp only [cgetObj, cget_cset_self, Option.some_bind]
    simp only [cgetStr, cget_cset_self]
    simp only [singboxFingerprint]
  · unfold generateStreamSettings
    simp only [cgetStr]
    rw [cget_xrayNetworkStep p _ _ (by decide) (by decide) (by decide)
      (by decide) (by decide)]
    rw [(cget_xrayTLSStep_reality p _ hsec htls).1]
  · unfold generateStreamSettings
    simp only [cgetObj]
    rw [cget_xrayNetworkStep p _ _ (by decide) (by decide) (by decide)
      (by decide) (by decide)]
    obtain ⟨ts, hts⟩ := (cget_xrayTLSStep_reality p _ hsec htls).2
    rw [hts]
    rfl
  · unfold generateStreamSettings
    apply hasKey_xrayNetworkStep p _ _ (Or.inl rfl)
    apply hasKey_xrayTLSStep p _ _ (Or.inl rfl)
    simp +decide [cfieldsHasKey, cvalHasKey]
  · unfold generateStreamSettings
    apply hasKey_xrayNetworkStep p _ _ (Or.inr rfl)
    apply hasKey_xrayTLSStep p _ _ (Or.inr rfl)
    simp +decide [cfieldsHasKey, cvalHasKey]

/-- Witness for the amended C1 at the concrete REALITY protocol. -/
theorem reality_fingerprint_witness :
    (((cgetObj (generateSingboxVLESSOutbound xrayRealityExample) "tls".data).bind
        (fun tls => cgetObj tls "utls".data)).bind
      (fun u => cgetStr u "fingerprint".data) = some "chrome".data) := by
  have h := reality_fingerprint_amended xrayRealityExample rfl rfl
  rw [h.2.1, h.2.2.2.1 (Or.inl rfl) (Or.inl rfl)]

/-! ## C2 — vmess port coercion -/

theorem not_space_of_digit (c : Char) (h : isDigitCh c = true) :
    isSpaceCh c = false := by
  unfold isDigitCh at h
  unfold isSpaceCh
  simp only [decide_eq_true_eq] at h
  simp only [decide_eq_false_iff_not]
  intro hc
  rcases hc with rfl | rfl | rfl | rfl | rfl | rfl <;> revert h <;> decide

theorem goAtoi_none_of_not_numeric (s : Str) (h : isNumericLit s = false) :
    goAtoi s = none := by
  cases s with
  | nil => rfl
  | cons c rest =>
    simp only [isNumericLit] at h
    simp only [goAtoi]
    by_cases hm : c = '-'
    · rw [if_pos hm]
      rw [if_pos (Or.inl hm)] at h
      rcases Bool.and_eq_false_iff.mp h with h' | h'
      · have : rest.isEmpty = true := by simpa using h'
        simp [this]
      · simp [h']
    · rw [if_neg hm]
      by_cases hp : c = '+'
      · rw [if_pos hp]
        rw [if_pos (Or.inr hp)] at h
        rcases Bool.and_eq_false_iff.mp h with h' | h'
        · have : rest.isEmpty = true := by simpa using h'
          simp [this]
        · simp [h']
      · rw [if_neg hp]
        rw [if_neg (fun hc => hc.elim hm hp)] at h
        rcases Bool.and_eq_false_iff.mp h with h' | h'
        · simp at h'
        · simp [h']

theorem goAtoi_stringOrNumber_none (v : JValue) (h : portValueNumeric v = false) :
    goAtoi (stringOrNumberOfJValue v) = none := by
  cases v with
  | jstr s =>
    exact goAtoi_none_of_not_numeric s (by simpa [portValueNumeric] using h)
  | jnum raw =>
    show goAtoi (trimSpace raw) = none
    exact goAtoi_none_of_not_numeric _ (by simpa [portValueNumeric] using h)
  | jnull => rfl
  | jbool b => cases b <;> rfl
  | jarr xs =>
    obtain ⟨t, ht⟩ := trimSpace_cons_of_not_space '['
      (jSerializeItems xs ++ [']']) (by decide)
    show goAtoi (trimSpace ('[' :: (jSerializeItems xs ++ [']']))) = none
    rw [ht]
    exact goAtoi_none_of_head '[' t (by decide) (by decide) (by decide)
  | jobj fs =>
    obtain ⟨t, ht⟩ := trimSpace_cons_of_not_space '{'
      (jSerializeFields fs ++ ['}']) (by decide)
    show goAtoi (trimSpace ('{' :: (jSerializeFields fs ++ ['}']))) = none
    rw [ht]
    exact goAtoi_none_of_head '{' t (by decide) (by decide) (by decide)

theorem vmessSetField_port (cfg : VMessConfig) (k : Str) (v : JValue)
    (hk : toLowerAscii k = "port".data) :
    vmessSetField cfg k v = some { cfg with port := stringOrNumberOfJValue v } := by
  unfold vmessSetField
  rw [if_pos hk]

theorem vmessSetField_port_comm (cfg : VMessConfig) (q : Str) (k : Str) (v : JValue)
    (hk : toLowerAscii k ≠ "port".data) :
    vmessSetField { cfg with port := q } k v =
      (vmessSetField cfg k v).map (fun c => { c with port := q }) := by
  unfold vmessSetField
  rw [if_neg hk, if_neg hk]
  by_cases h1 : toLowerAscii k = "v".data
  · rw [if_pos h1, if_pos h1]
    cases v <;> rfl
  rw [if_neg h1, if_neg h1]
  by_cases h2 : toLowerAscii k = "ps".data
  · rw [if_pos h2, if_pos h2]
    cases v <;> rfl
  rw [if_neg h2, if_neg h2]
  by_cases h3 : toLowerAscii k = "add".data
  · rw [if_pos h3, if_pos h3]
    cases v <;> rfl
  rw [if_neg h3, if_neg h3]
  by_cases h4 : toLowerAscii k = "id".data
  · rw [if_pos h4, if_pos h4]
    cases v <;> rfl
  rw [if_neg h4, if_neg h4]
  by_cases h5 : toLowerAscii k = "aid".data
  · rw [if_pos h5, if_pos h5]
    cases v <;> rfl
  rw [if_neg h5, if_neg h5]
  by_cases h6 : toLowerAscii k = "net".data
  · rw [if_pos h6, if_pos h6]
    cases v <;> rfl
  rw [if_neg h6, if_neg h6]
  by_cases h7 : toLowerAscii k = "type".data
  · rw [if_pos h7, if_pos h7]
    cases v <;> rfl
  rw [if_neg h7, if_neg h7]
  by_cases h8 : toLowerAscii k = "host".data
  · rw [if_pos h8, if_pos h8]
    cases v <;> rfl
  rw [if_neg h8, if_neg h8]
  by_cases h9 : toLowerAscii k = "path".data
  · rw [if_pos h9, if_pos h9]
    cases v <;> rfl
  rw [if_neg h9, if_neg h9]
  by_cases h10 : toLowerAscii k = "tls".data
  · rw [if_pos h10, if_pos h10]
    cases v <;> rfl
  rw [if_neg h10, if_neg h10]
  by_cases h11 : toLowerAscii k = "sni".data
  · rw [if_pos h11, if_pos h11]
    cases v <;> rfl
  rw [if_neg h11, if_neg h11]
  rfl

theorem vmessSetField_port_preserved (cfg c' : VMessConfig) (k : Str) (v : JValue)
    (hk : toLowerAscii k ≠ "port".data) (h : vmessSetField cfg k v = some c') :
    c'.port = cfg.port := by
  unfold vmessSetField at h
  rw [if_neg hk] at h
  by_cases h1 : toLowerAscii k = "v".data
  · rw [if_pos h1] at h
    unfold vmessSetStr at h
    cases v <;> ((cases h) <;> rfl)
  rw [if_neg h1] at h
  by_cases h2 : toLowerAscii k = "ps".data
  · rw [if_pos h2] at h
    unfold vmessSetStr at h
    cases v <;> ((cases h) <;> rfl)
  rw [if_neg h2] at h
  by_cases h3 : toLowerAscii k = "add".data
  · rw [if_pos h3] at h
    unfold vmessSetStr at h
    cases v <;> ((cases h) <;> rfl)
  rw [if_neg h3] at h
  by_cases h4 : toLowerAscii k = "id".data
  · rw [if_pos h4] at h
    unfold vmessSetStr at h
    cases v <;> ((cases h) <;> rfl)
  rw [if_neg h4] at h
  by_cases h5 : toLowerAscii k = "aid".data
  · rw [if_pos h5] at h
    unfold vmessSetStr at h
    cases v <;> ((cases h) <;> rfl)
  rw [if_neg h5] at h
  by_cases h6 : toLowerAscii k = "net".data
  · rw [if_pos h6] at h
    unfold vmessSetStr at h
    cases v <;> ((cases h) <;> rfl)
  rw [if_neg h6] at h
  by_cases h7 : toLowerAscii k = "type".data
  · rw [if_pos h7] at h
    unfold vmessSetStr at h
    cases v <;> ((cases h) <;> rfl)
  rw [if_neg h7] at h
  by_cases h8 : toLowerAscii k = "host".data
  · rw [if_pos h8] at h
    unfold vmessSetStr at h
    cases v <;> ((cases h) <;> rfl)
  rw [if_neg h8] at h
  by_cases h9 : toLowerAscii k = "path".data
  · rw [if_pos h9] at h
    unfold vmessSetStr at h
    cases v <;> ((cases h) <;> rfl)
  rw [if_neg h9] at h
  by_cases h10 : toLowerAscii k = "tls".data
  · rw [if_pos h10] at h
    unfold vmessSetStr at h
    cases v <;> ((cases h) <;> rfl)
  rw [if_neg h10] at h
  by_cases h11 : toLowerAscii k = "sni".data
  · rw [if_pos h11] at h
    unfold vmessSetStr at h
    cases v <;> ((cases h) <;> rfl)
  rw [if_neg h11] at h
  cases h
  rfl

theorem foldlM_port_comm (post : List (Str × JValue)) :
    ∀ (cfg : VMessConfig) (q : Str),
      (∀ kv ∈ post, toLowerAscii kv.1 ≠ "port".data) →
      post.foldlM (fun c kv => vmessSetField c kv.1 kv.2) { cfg with port := q } =
        (post.foldlM (fun c kv => vmessSetField c kv.1 kv.2) cfg).map
          (fun c => { c with port := q }) := by
  induction post with
  | nil => intro cfg q _; rfl
  | cons kv rest ih =>
    intro cfg q hpost
    rw [List.foldlM_cons, List.foldlM_cons]
    rw [vmessSetField_port_comm cfg q kv.1 kv.2 (hpost kv (by simp))]
    cases h : vmessSetField cfg kv.1 kv.2 with
    | none => rfl
    | some c' =>
      show rest.foldlM (fun c kv => vmessSetField c kv.1 kv.2)
          { c' with port := q } =
        (rest.foldlM (fun c kv => vmessSetField c kv.1 kv.2) c').map
          (fun c => { c with port := q })
      exact ih c' q (fun kv' hkv' => hpost kv' (by simp [hkv']))

theorem jUnmarshal_port_entry (pre post : List (Str × JValue)) (k : Str) (v : JValue)
    (hk : toLowerAscii k = "port".data)
    (hpost : ∀ kv ∈ post, toLowerAscii kv.1 ≠ "port".data) :
    jUnmarshalVMess (.jobj (pre ++ (k, v) :: post)) =
      (pre.foldlM (fun c kv => vmessSetField c kv.1 kv.2) {}).bind
        (fun c => (post.foldlM (fun c' kv => vmessSetField c' kv.1 kv.2) c).map
          (fun c' => { c' with port := stringOrNumberOfJValue v })) := by
  show (pre ++ (k, v) :: post).foldlM (fun c kv => vmessSetField c kv.1 kv.2)
      ({} : VMessConfig) = _
  rw [List.foldlM_append]
  cases hpre : pre.foldlM (fun c kv => vmessSetField c kv.1 kv.2) {} with
  | none => rfl
  | some c =>
    show ((k, v) :: post).foldlM (fun c kv => vmessSetField c kv.1 kv.2) c =
      (post.foldlM (fun c' kv => vmessSetField c' kv.1 kv.2) c).map
        (fun c' => { c' with port := stringOrNumberOfJValue v })
    rw [List.foldlM_cons, vmessSetField_port c k v hk]
    show post.foldlM (fun c' kv => vmessSetField c' kv.1 kv.2)
        { c with port := stringOrNumberOfJValue v } =
      (post.foldlM (fun c' kv => vmessSetField c' kv.1 kv.2) c).map
        (fun c' => { c' with port := stringOrNumberOfJValue v })
    exact foldlM_port_comm post c (stringOrNumberOfJValue v) hpost

theorem fold_port_bad (fields : List (Str × JValue)) :
    ∀ cfg : VMessConfig,
      (∀ kv ∈ fields, toLowerAscii kv.1 = "port".data →
        portValueNumeric kv.2 = false) →
      goAtoi cfg.port = none →
      ∀ cfg', fields.foldlM (fun c kv => vmessSetField c kv.1 kv.2) cfg = some cfg' →
      goAtoi cfg'.port = none := by
  induction fields with
  | nil =>
    intro cfg _ hcfg cfg' h
    cases h
    exact hcfg
  | cons kv rest ih =>
    intro cfg hf hcfg cfg' h
    rw [List.foldlM_cons] at h
    cases hstep : vmessSetField cfg kv.1 kv.2 with
    | none =>
      rw [hstep] at h
      exact absurd h (by simp)
    | some c =>
      rw [hstep] at h
      have h' : rest.foldlM (fun c' kv' => vmessSetField c' kv'.1 kv'.2) c =
          some cfg' := h
      refine ih c (fun kv' hkv' => hf kv' (by simp [hkv'])) ?_ cfg' h'
      by_cases hkp : toLowerAscii kv.1 = "port".data
      · rw [vmessSetField_port cfg kv.1 kv.2 hkp] at hstep
        injection hstep with hc
        rw [← hc]
        exact goAtoi_stringOrNumber_none kv.2 (hf kv (by simp) hkp)
      · rw [vmessSetField_port_preserved cfg c kv.1 kv.2 hkp hstep]
        exact hcfg

/-- C2: a vmess URI whose decoded JSON carries the port as a number
literal `ds` and the otherwise-identical URI carrying it as the string
`"ds"` (the port entry being the payloads' last-binding port field)
succeed or fail together, and on success both yield the same integer
port, the value of `ds`; a port value that is neither numeric nor a
numeric string makes `ParseVMess` return an error. -/
theorem vmess_port_coercion
    (url₁ url₂ d₁ d₂ : Str) (pre post : List (Str × JValue)) (k ds : Str)
    (h₁ : vmessDecodeStep (trimPrefix url₁ "vmess://".data) = .ok d₁)
    (h₂ : vmessDecodeStep (trimPrefix url₂ "vmess://".data) = .ok d₂)
    (hj₁ : jsonParse d₁ = some (.jobj (pre ++ (k, .jnum ds) :: post)))
    (hj₂ : jsonParse d₂ = some (.jobj (pre ++ (k, .jstr ds) :: post)))
    (hk : toLowerAscii k = "port".data)
    (hpost : ∀ kv ∈ post, toLowerAscii kv.1 ≠ "port".data)
    (hne : ds.isEmpty = false) (hdig : ds.all (isDigitCh ·) = true)
    (hrange : digitsVal ds < 2 ^ 63) :
    ((ParseVMess url₁).isOk ↔ (ParseVMess url₂).isOk) ∧
    (∀ p, ParseVMess url₁ = .ok p → p.port = (digitsVal ds : Int)) ∧
    (∀ p, ParseVMess url₂ = .ok p → p.port = (digitsVal ds : Int)) ∧
    (∀ url d fields, vmessDecodeStep (trimPrefix url "vmess://".data) = .ok d →
      jsonParse d = some (.jobj fields) →
      (∀ kv ∈ fields, toLowerAscii kv.1 = "port".data →
        portValueNumeric kv.2 = false) →
      ∃ e, ParseVMess url = .error e) := by
  have hnum : stringOrNumberOfJValue (.jnum ds) = ds := by
    show trimSpace ds = ds
    refine trimSpace_eq_self ds (fun c hc => ?_)
    exact not_space_of_digit c (by
      have := List.all_eq_true.mp hdig c hc
      simpa using this)
  have hUeq : jUnmarshalVMess (.jobj (pre ++ (k, .jstr ds) :: post)) =
      jUnmarshalVMess (.jobj (pre ++ (k, .jnum ds) :: post)) := by
    rw [jUnmarshal_port_entry pre post k _ hk hpost,
      jUnmarshal_port_entry pre post k _ hk hpost, hnum]
    rfl
  have hbad : ∀ url d fields,
      vmessDecodeStep (trimPrefix url "vmess://".data) = .ok d →
      jsonParse d = some (.jobj fields) →
      (∀ kv ∈ fields, toLowerAscii kv.1 = "port".data →
        portValueNumeric kv.2 = false) →
      ∃ e, ParseVMess url = .error e := by
    intro url d fields hdec hjson hfb
    cases hu : jUnmarshalVMess (.jobj fields) with
    | none =>
      exact ⟨"failed to parse vmess config".data,
        by simp only [ParseVMess, hdec, hjson, hu]⟩
    | some cfg =>
      have hatoi : goAtoi cfg.port = none := by
        refine fold_port_bad fields {} hfb rfl cfg ?_
        exact hu
      exact ⟨"invalid port".data,
        by simp only [ParseVMess, hdec, hjson, hu, hatoi]⟩
  cases hu : jUnmarshalVMess (.jobj (pre ++ (k, .jnum ds) :: post)) with
  | none =>
    have hu₂ : jUnmarshalVMess (.jobj (pre ++ (k, .jstr ds) :: post)) = none := by
      rw [hUeq, hu]
    refine ⟨?_, ?_, ?_, hbad⟩
    · simp only [ParseVMess, h₁, h₂, hj₁, hj₂, hu, hu₂]
    · intro p hp
      simp only [ParseVMess, h₁, hj₁, hu] at hp
      exact absurd hp (by simp)
    · intro p hp
      simp only [ParseVMess, h₂, hj₂, hu₂] at hp
      exact absurd hp (by simp)
  | some cfg =>
    have hu₂ : jUnmarshalVMess (.jobj (pre ++ (k, .jstr ds) :: post)) = some cfg := by
      rw [hUeq, hu]
    have hcport : cfg.port = ds := by
      rw [jUnmarshal_port_entry pre post k _ hk hpost] at hu
      cases hpre : pre.foldlM (fun c kv => vmessSetField c kv.1 kv.2) {} with
      | none => rw [hpre] at hu; exact absurd hu (by simp)
      | some c =>
        rw [hpre] at hu
        have hu' : (post.foldlM (fun c' kv => vmessSetField c' kv.1 kv.2) c).map
            (fun c' => { c' with port := stringOrNumberOfJValue (.jnum ds) }) =
            some cfg := hu
        cases hpost' : post.foldlM (fun c' kv => vmessSetField c' kv.1 kv.2) c with
        | none => rw [hpost'] at hu'; exact absurd hu' (by simp)
        | some c' =>
          rw [hpost'] at hu'
          have : ({ c' with port := stringOrNumberOfJValue (.jnum ds) }
              : VMessConfig) = cfg := by
            injection hu'
          rw [← this, hnum]
    have hatoi : goAtoi cfg.port = some ((digitsVal ds : Int)) := by
      rw [hcport]
      exact goAtoi_digits ds (by simp [hne]) hdig hrange
    refine ⟨?_, ?_, ?_, hbad⟩
    · simp only [ParseVMess, h₁, h₂, hj₁, hj₂, hu, hu₂, hatoi]
      simp [Except.isOk, Except.toBool]
    · intro p hp
      simp only [ParseVMess, h₁, hj₁, hu, hatoi] at hp
      injection hp with hp'
      rw [← hp']
    · intro p hp
      simp only [ParseVMess, h₂, hj₂, hu₂, hatoi] at hp
      injection hp with hp'
      rw [← hp']

/-- Witness for C2 at a concrete payload pair: the same vmess JSON
with `"port":2086` and `"port":"2086"`. -/
theorem vmess_port_coercion_witness :
    ((ParseVMess ("vmess://" ++
      "eyJ2IjoiMiIsInBzIjoidCIsImFkZCI6ImgiLCJpZCI6InUiLCJuZXQiOiJ0Y3AiLCJ0bHMiOiJ0bHMiLCJwb3J0IjoyMDg2fQ==").data).isOk ↔
     (ParseVMess ("vmess://" ++
      "eyJ2IjoiMiIsInBzIjoidCIsImFkZCI6ImgiLCJpZCI6InUiLCJuZXQiOiJ0Y3AiLCJ0bHMiOiJ0bHMiLCJwb3J0IjoiMjA4NiJ9").data).isOk) :=
  (vmess_port_coercion
    ("vmess://" ++ "eyJ2IjoiMiIsInBzIjoidCIsImFkZCI6ImgiLCJpZCI6InUiLCJuZXQiOiJ0Y3AiLCJ0bHMiOiJ0bHMiLCJwb3J0IjoyMDg2fQ==").data
    ("vmess://" ++ "eyJ2IjoiMiIsInBzIjoidCIsImFkZCI6ImgiLCJpZCI6InUiLCJuZXQiOiJ0Y3AiLCJ0bHMiOiJ0bHMiLCJwb3J0IjoiMjA4NiJ9").data
    ("\x7b\x22v\x22:\x222\x22,\x22ps\x22:\x22t\x22,\x22add\x22:\x22h\x22,\x22id\x22:\x22u\x22,\x22net\x22:\x22tcp\x22,\x22tls\x22:\x22tls\x22,\x22port\x22:2086\x7d").data
    ("\x7b\x22v\x22:\x222\x22,\x22ps\x22:\x22t\x22,\x22add\x22:\x22h\x22,\x22id\x22:\x22u\x22,\x22net\x22:\x22tcp\x22,\x22tls\x22:\x22tls\x22,\x22port\x22:\x222086\x22\x7d").data
    [("v".data, .jstr "2".data), ("ps".data, .jstr "t".data),
     ("add".data, .jstr "h".data), ("id".data, .jstr "u".data),
     ("net".data, .jstr "tcp".data), ("tls".data, .jstr "tls".data)]
    [] "port".data "2086".data
    rfl rfl rfl rfl rfl (by simp) rfl rfl (by decide)).1

/-! ## C6 — unrecognized scheme lines are skipped, decode fails only
when empty -/

/-- C6: a non-empty trimmed line with none of the seven recognized
scheme prefixes contributes nothing to the protocol list and does not
stop the parsing of the surrounding lines, and `parseProtocols` fails
exactly when zero protocols were collected. -/
theorem unknown_scheme_skipped (pre suf : List Str) (line : Str) (content : Str)
    (hne : (trimSpace line).isEmpty = false)
    (h1 : hasPrefix (trimSpace line) "vmess://".data = false)
    (h2 : hasPrefix (trimSpace line) "vless://".data = false)
    (h3 : hasPrefix (trimSpace line) "trojan://".data = false)
    (h4 : hasPrefix (trimSpace line) "ss://".data = false)
    (h5 : hasPrefix (trimSpace line) "hysteria2://".data = false)
    (h6 : hasPrefix (trimSpace line) "hy2://".data = false)
    (h7 : hasPrefix (trimSpace line) "tuic://".data = false) :
    collectProtocols (pre ++ line :: suf) = collectProtocols (pre ++ suf) ∧
    (parseProtocols content = .error "no valid protocols found".data ↔
      collectProtocols (scanLines content) = []) ∧
    (∀ r, parseProtocols content = .ok r →
      r = collectProtocols (scanLines content)) := by
  have hline : parseProtocolLine (trimSpace line) =
      .error "unknown protocol type".data := by
    unfold parseProtocolLine
    rw [if_neg (by simp [h1]), if_neg (by simp [h2]), if_neg (by simp [h3]),
      if_neg (by simp [h4]), if_neg (by simp [h5, h6]), if_neg (by simp [h7])]
  refine ⟨?_, ?_, ?_⟩
  · unfold collectProtocols
    rw [List.filterMap_append, List.filterMap_append, List.filterMap_cons]
    rw [show ((if (trimSpace line).isEmpty = true then none
        else (parseProtocolLine (trimSpace line)).toOption) = none) from by
      simp [hne, hline, Except.toOption]]
  · unfold parseProtocols
    by_cases hp : (collectProtocols (scanLines content)).isEmpty
    · simp only [hp, if_true]
      simpa [List.isEmpty_iff] using hp
    · simp only [hp, Bool.false_eq_true, if_false]
      constructor
      · intro h; cases h
      · intro h
        exact absurd h (by simpa [List.isEmpty_iff] using hp)
  · intro r h
    unfold parseProtocols at h
    by_cases hp : (collectProtocols (scanLines content)).isEmpty
    · rw [if_pos hp] at h
      cases h
    · rw [if_neg hp] at h
      injection h with h
      exact h.symm

/-- Witness for C6: a `wg://` line between two valid lines is skipped
and later lines still parse; a body with only unknown lines decodes to
an error. -/
theorem unknown_scheme_skipped_witness :
    collectProtocols (["trojan://p@h".data] ++ "wg://x".data :: ["vless://u@h".data]) =
      collectProtocols (["trojan://p@h".data] ++ ["vless://u@h".data]) ∧
    (parseProtocols "wg://abc".data = .error "no valid protocols found".data ↔
      collectProtocols (scanLines "wg://abc".data) = []) := by
  have h := unknown_scheme_skipped ["trojan://p@h".data] ["vless://u@h".data]
    "wg://x".data "wg://abc".data rfl rfl rfl rfl rfl rfl rfl rfl
  exact ⟨h.1, h.2.1⟩

/-! ## C4 — index-stable result aggregation -/

theorem stage_protocol (cfg : TestConfig) (env : TestEnv) (r : TestResult) :
    (stagePerf cfg env r).protocol = r.protocol ∧
    (stageGeo cfg env r).protocol = r.protocol ∧
    (stageDNS cfg env r).protocol = r.protocol ∧
    (stagePrivacy cfg env r).protocol = r.protocol := by
  refine ⟨?_, ?_, ?_, ?_⟩ <;>
    · simp only [stagePerf, stageGeo, stageDNS, stagePrivacy]
      repeat' split
      all_goals rfl

theorem testProtocol_protocol (cfg : TestConfig) (env : TestEnv) (p : Protocol) :
    (testProtocol cfg env p).protocol = p := by
  unfold testProtocol
  repeat' split
  all_goals
    first
    | rfl
    | (rw [(stage_protocol ..).2.2.2, (stage_protocol ..).2.2.1,
        (stage_protocol ..).2.1, (stage_protocol ..).1])

theorem foldl_applyWrite_length (ws : List (Nat × TestResult))
    (init : List (Option TestResult)) :
    (ws.foldl applyWrite init).length = init.length := by
  induction ws generalizing init with
  | nil => rfl
  | cons w rest ih =>
    rw [List.foldl_cons, ih]
    exact List.length_set init w.1 (some w.2)

theorem foldl_applyWrite_not_mem (ws : List (Nat × TestResult))
    (init : List (Option TestResult)) (i : Nat)
    (hi : i ∉ ws.map Prod.fst) :
    (ws.foldl applyWrite init)[i]? = init[i]? := by
  induction ws generalizing init with
  | nil => rfl
  | cons w rest ih =>
    simp only [List.map_cons, List.mem_cons, not_or] at hi
    rw [List.foldl_cons, ih _ hi.2]
    exact List.getElem?_set_ne (fun h => hi.1 h.symm)

theorem foldl_applyWrite_mem (ws : List (Nat × TestResult))
    (i : Nat) (r : TestResult) :
    ∀ init : List (Option TestResult), (ws.map Prod.fst).Nodup →
      (i, r) ∈ ws → i < init.length →
      (ws.foldl applyWrite init)[i]? = some (some r) := by
  induction ws with
  | nil => intro init _ hmem _; cases hmem
  | cons w rest ih =>
    intro init hnd hmem hi
    simp only [List.map_cons, List.nodup_cons] at hnd
    rw [List.foldl_cons]
    rcases List.mem_cons.mp hmem with heq | hmem'
    · cases heq
      have hni : i ∉ rest.map Prod.fst := hnd.1
      rw [foldl_applyWrite_not_mem rest _ i hni]
      exact List.getElem?_set_self hi
    · exact ih (applyWrite init w) hnd.2 hmem'
        (by simpa [applyWrite] using hi)

/-- C4: however the workers' completions are ordered (any permutation
of the input indices), the returned slice has the input's length and
holds at index `i` the result of testing the `i`-th input protocol —
whose `protocol` field is that `i`-th input. -/
theorem run_tests_index_stable (cfg : TestConfig) (envs : Nat → TestEnv)
    (ps : List Protocol) (order : List Nat)
    (hperm : order.Perm (List.range ps.length)) :
    (runTestsModel cfg envs ps order).length = ps.length ∧
    (∀ i, i < ps.length →
      (runTestsModel cfg envs ps order)[i]? =
        some (some (testProtocol cfg (envs i) (ps.getD i default)))) ∧
    (∀ i r, i < ps.length →
      (runTestsModel cfg envs ps order)[i]? = some (some r) →
      r.protocol = ps.getD i default) := by
  have hnd : order.Nodup := hperm.symm.nodup (List.nodup_range _)
  have hpart2 : ∀ i, i < ps.length →
      (runTestsModel cfg envs ps order)[i]? =
        some (some (testProtocol cfg (envs i) (ps.getD i default))) := by
    intro i hi
    unfold runTestsModel
    apply foldl_applyWrite_mem
    · simpa [List.map_map, Function.comp_def] using hnd
    · exact List.mem_map_of_mem _ ((hperm.mem_iff).mpr (List.mem_range.mpr hi))
    · simpa using hi
  refine ⟨?_, hpart2, ?_⟩
  · unfold runTestsModel
    rw [foldl_applyWrite_length]
    simp
  · intro i r hi hr
    rw [hpart2 i hi] at hr
    have : testProtocol cfg (envs i) (ps.getD i default) = r := by
      injection hr with hr'
      injection hr'
    rw [← this, testProtocol_protocol]

/-- Witness for C4 with two targets completing in reversed order. -/
theorem run_tests_index_stable_witness :
    (runTestsModel ⟨false, false, false, false⟩
      (fun _ => ⟨some "e".data, none, .error none, .error (), .error (),
        fun _ => .error (), .error ()⟩)
      [default, default] [1, 0]).length = 2 :=
  (run_tests_index_stable ⟨false, false, false, false⟩
    (fun _ => ⟨some "e".data, none, .error none, .error (), .error (),
      fun _ => .error (), .error ()⟩)
    [default, default] [1, 0] (by decide)).1


end ProtoScope
